import Mathlib

/-!
Verification of the AltiumXCEL2QueryBuilder core against its specification.

This file gives a shallow embedding, in Lean 4, of the core data model and
algorithms of the repository (src/models/rule_model.py, src/models/excel_data.py,
src/services/rule_generator.py) and proves or refutes the frozen claims about it.

Modelling conventions:
* Python strings are Lean `String`s; the character scanners that model the
  regular expressions used by the source work on `List Char`.
* Python `float` values are modelled as rationals (`ℚ`); where a claim is about
  bit-level IEEE-754 behaviour (unit conversion), a binary64 rounding model is
  used, with every double represented by the rational it denotes.
* Functions that mutate `self` in Python are modelled by explicit state passing;
  functions that can raise are modelled with `Option`.
* The process-wide random source used for UNIQUEID generation is modelled by an
  explicit argument carrying the freshly drawn id string.
-/

/-! ### Python string primitives -/

/-- Characters treated as whitespace by Python `str.strip` and by `\s`
in Python regular expressions (ASCII fragment). -/
def pySpaceChars : List Char :=
  [Char.ofNat 32, Char.ofNat 9, Char.ofNat 10, Char.ofNat 13, Char.ofNat 11, Char.ofNat 12]

/-- Whitespace test for the Python whitespace characters. -/
def pyIsSpace (c : Char) : Bool := pySpaceChars.contains c

/-- Drop trailing Python whitespace from a character list. -/
def stripRightChars (l : List Char) : List Char :=
  (l.reverse.dropWhile pyIsSpace).reverse

/-- Python `str.strip()` on a character list: drop leading and trailing whitespace. -/
def pyStripChars (l : List Char) : List Char :=
  stripRightChars (l.dropWhile pyIsSpace)

/-- Python `str.strip()` on strings. -/
def pyStrip (s : String) : String := String.mk (pyStripChars s.data)

/-- Python `str.lower()` (ASCII fragment, which is all the source uses). -/
def pyLower (s : String) : String := String.mk (s.data.map Char.toLower)

/-- Python `sep.join(parts)`. -/
def pyJoin (sep : String) : List String → String
  | [] => ""
  | [x] => x
  | x :: y :: rest => x ++ sep ++ pyJoin sep (y :: rest)

/-- Python `x in s` substring test for character lists: some split of `l`
has `sub` as an infix starting there. -/
def containsSub (l sub : List Char) : Bool :=
  match l with
  | [] => sub.isPrefixOf []
  | _ :: rest => sub.isPrefixOf l || containsSub rest sub

/-! ### Unit system (rule_model.py, class UnitType) -/

/-- UnitType enum from rule_model.py: unit types for measurements. -/
inductive UnitType where
  | MIL
  | MM
  | INCH
deriving DecidableEq, Repr

/-- The `.value` string of each UnitType enum member. -/
def UnitType.value : UnitType → String
  | .MIL => "mil"
  | .MM => "mm"
  | .INCH => "inch"

/-- UnitType.from_string: case-insensitive synonym lookup.  The Python version
raises ValueError on an unknown token; this is modelled by `none`. -/
def UnitType.from_string (unit_str : String) : Option UnitType :=
  let u := pyStrip (pyLower unit_str)
  if u = "mil" ∨ u = "mils" then some .MIL
  else if u = "mm" ∨ u = "millimeter" ∨ u = "millimeters" then some .MM
  else if u = "inch" ∨ u = "inches" ∨ u = "in" then some .INCH
  else none

/-! ### Rule kinds (rule_model.py, class RuleType) -/

/-- RuleType enum from rule_model.py (the three kinds with parser support,
plus the extra declared members). -/
inductive RuleType where
  | CLEARANCE
  | SHORT_CIRCUIT
  | UNROUTED_NET
  | UNCONNECTED_PIN
  | MODIFIED_POLYGON
  | CREEPAGE_DISTANCE
deriving DecidableEq, Repr

/-- The `.value` string of each RuleType enum member. -/
def RuleType.value : RuleType → String
  | .CLEARANCE => "Clearance"
  | .SHORT_CIRCUIT => "ShortCircuit"
  | .UNROUTED_NET => "UnroutedNet"
  | .UNCONNECTED_PIN => "UnconnectedPin"
  | .MODIFIED_POLYGON => "ModifiedPolygon"
  | .CREEPAGE_DISTANCE => "CreepageDistance"

/-! ### Scope expressions (rule_model.py, class RuleScope) -/

/-- RuleScope from rule_model.py: `scope_type` is a plain string tag
("All", "NetClass", "NetClasses", "Custom") and `items` its payload list. -/
structure RuleScope where
  scope_type : String
  items : List String
deriving DecidableEq, Repr

/-- RuleScope.to_query_string: convert a scope to the RUL query syntax.
Mirrors the if/elif chain of the source, including the fallbacks to "All"
for empty item lists and unknown scope types. -/
def RuleScope.to_query_string (s : RuleScope) : String :=
  if s.scope_type = "All" then "All"
  else if s.scope_type = "NetClass" then
    match s.items with
    | [] => "All"
    | x :: _ => "InNetClass(\x27" ++ x ++ "\x27)"
  else if s.scope_type = "NetClasses" then
    pyJoin " OR " (s.items.map (fun item => "InNetClass(\x27" ++ item ++ "\x27)"))
  else if s.scope_type = "Custom" then
    match s.items with
    | [] => "All"
    | x :: _ => x
  else "All"

/-- RuleScope.to_rul_format is an alias for to_query_string in the source. -/
def RuleScope.to_rul_fmt (s : RuleScope) : String := s.to_query_string

/-! ### IEEE-754 binary64 model (rule_model.py, UnitType.convert)

Python floats are IEEE-754 binary64 values and `UnitType.convert` performs
float multiplication and division, i.e. exact rational arithmetic followed by
rounding to nearest (ties to even).  Doubles are embedded by the exact rational
value they denote.  To keep every operation kernel-computable the rationals are
carried as unreduced fractions with positive denominator (`Frac`); `Frac.feq`
is value equality.  Overflow to infinity and NaN payloads are outside the model
(no claim exercises them: the conversion factors keep the values finite). -/

/-- Unreduced fraction `n / d`.  All constructions below keep `d` positive. -/
structure Frac where
  n : ℤ
  d : ℤ
deriving DecidableEq, Repr

/-- Value equality of fractions (cross multiplication). -/
def Frac.feq (a b : Frac) : Prop := a.n * b.d = b.n * a.d

instance (a b : Frac) : Decidable (Frac.feq a b) := by
  unfold Frac.feq
  infer_instance

/-- Smart constructor keeping the denominator positive. -/
def Frac.mk2 (n d : ℤ) : Frac := if d < 0 then ⟨-n, -d⟩ else ⟨n, d⟩

/-- Embed an integer. -/
def Frac.ofInt (i : ℤ) : Frac := ⟨i, 1⟩

/-- Exact product. -/
def Frac.mul (a b : Frac) : Frac := ⟨a.n * b.n, a.d * b.d⟩

/-- Exact quotient. -/
def Frac.div (a b : Frac) : Frac := Frac.mk2 (a.n * b.d) (a.d * b.n)

/-- Absolute value. -/
def Frac.fabs (a : Frac) : Frac := ⟨|a.n|, |a.d|⟩

/-- The fraction `2 ^ e` for an integer exponent. -/
def Frac.twoZpow (e : ℤ) : Frac :=
  if 0 ≤ e then ⟨2 ^ e.toNat, 1⟩ else ⟨1, 2 ^ (-e).toNat⟩

/-- Round a fraction (with positive denominator) to the nearest integer,
ties to even. -/
def Frac.roundHalfEven (a : Frac) : ℤ :=
  let q := a.n.fdiv a.d
  let r := a.n - q * a.d
  if 2 * r < a.d then q
  else if a.d < 2 * r then q + 1
  else if q % 2 = 0 then q else q + 1

/-- Fuel-based bit length of a natural number (`bitsFuel n n` is exact). -/
def bitsFuel : Nat → Nat → Nat
  | 0, _ => 0
  | fuel + 1, n => if n = 0 then 0 else bitsFuel fuel (n / 2) + 1

/-- Bit length of a natural number. -/
def bitsize (n : Nat) : Nat := bitsFuel n n

/-- Fuel-based floor of the base-2 logarithm of a positive fraction:
repeatedly scale into the interval `[1, 2)` counting the steps. -/
def Frac.ilog2Aux : Nat → Frac → ℤ → ℤ
  | 0, _, acc => acc
  | fuel + 1, a, acc =>
    if a.n < a.d then Frac.ilog2Aux fuel ⟨2 * a.n, a.d⟩ (acc - 1)
    else if 2 * a.d ≤ a.n then Frac.ilog2Aux fuel ⟨a.n, 2 * a.d⟩ (acc + 1)
    else acc

/-- Floor of the base-2 logarithm of a positive fraction. -/
def Frac.ilog2 (a : Frac) : ℤ :=
  Frac.ilog2Aux (bitsize a.n.natAbs + bitsize a.d.natAbs + 2) a 0

/-- IEEE-754 binary64 rounding (round to nearest, ties to even) of an exact
rational value, producing the rational value of the resulting double: pick the
scale `e` so that the significand lies in `[2^52, 2^53)` (clamped at the
subnormal limit `2^-1074`), round the significand, and rebuild the value. -/
def roundB64 (q : Frac) : Frac :=
  if q.n = 0 then ⟨0, 1⟩
  else
    let a := q.fabs
    let e : ℤ := max (a.ilog2 - 52) (-1074)
    let m : ℤ := Frac.roundHalfEven (a.div (Frac.twoZpow e))
    let s : ℤ := if q.n * q.d < 0 then -1 else 1
    (Frac.ofInt (s * m)).mul (Frac.twoZpow e)

/-- Float multiplication: exact product, then binary64 rounding. -/
def fmul (x y : Frac) : Frac := roundB64 (x.mul y)

/-- Float division: exact quotient, then binary64 rounding. -/
def fdiv (x y : Frac) : Frac := roundB64 (x.div y)

/-- A fraction denotes a binary64 value (its rounding is itself). -/
def isB64 (x : Frac) : Prop := Frac.feq (roundB64 x) x

instance (x : Frac) : Decidable (isB64 x) := by
  unfold isB64
  infer_instance

/-- The binary64 value of the source literal `MM_TO_MIL = 39.37007874015748`. -/
def MM_TO_MIL : Frac := roundB64 ⟨3937007874015748, 100000000000000⟩

/-- The source constant `INCH_TO_MIL = 1000` (exact). -/
def INCH_TO_MIL : Frac := ⟨1000, 1⟩

/-- UnitType.convert from rule_model.py: convert the value to mils, then from
mils to the target unit, with float (binary64) multiplication and division. -/
def UnitType.convert (value : Frac) (from_unit to_unit : UnitType) : Frac :=
  let value_mils :=
    if from_unit = UnitType.MM then fmul value MM_TO_MIL
    else if from_unit = UnitType.INCH then fmul value INCH_TO_MIL
    else value
  if to_unit = UnitType.MM then fdiv value_mils MM_TO_MIL
  else if to_unit = UnitType.INCH then fdiv value_mils INCH_TO_MIL
  else value_mils

/-! ### Decimal rendering of Python numbers

`to_rul_format` interpolates `min_clearance` (a float) and `priority` (an int)
into the output line with Python `str()`.  The digit computations below work on
the integer numerator/denominator directly so that they kernel-evaluate.
`pyFloatRepr` renders the exact decimal expansion with at least one fractional
digit, which agrees with Python `str()` on floats whose value is a short exact
decimal (such as the clearance values appearing in the claims); the scientific
notation Python switches to outside `[1e-4, 1e16)` is not modelled. -/

/-- Fuel-based decimal digits of a natural number, most significant first
(`natReprAux (n+1) n` is exact). -/
def natReprAux : Nat → Nat → List Char
  | 0, _ => []
  | fuel + 1, n =>
    if n < 10 then [Nat.digitChar n]
    else natReprAux fuel (n / 10) ++ [Nat.digitChar (n % 10)]

/-- Decimal representation of a natural number (Python `str`). -/
def natRepr (n : Nat) : String := String.mk (natReprAux (n + 1) n)

/-- Decimal representation of an integer (Python `str`). -/
def pyIntRepr (i : ℤ) : String :=
  if i < 0 then "-" ++ natRepr i.natAbs else natRepr i.natAbs

/-- Fuel-based fractional decimal digits of `r / d` (for `0 ≤ r < d`),
stopping when the remainder vanishes. -/
def decDigitsFuel : Nat → Nat → Nat → List Char
  | 0, _, _ => []
  | fuel + 1, r, d =>
    if r = 0 then []
    else Nat.digitChar (r * 10 / d) :: decDigitsFuel fuel (r * 10 % d) d

/-- Python `str()` of a float given as the exact rational it denotes. -/
def pyFloatRepr (q : ℚ) : String :=
  let sign := if q < 0 then "-" else ""
  let num := q.num.natAbs
  let den := q.den
  let ip := num / den
  let r := num % den
  sign ++ natRepr ip ++ "." ++
    (if r = 0 then "0" else String.mk (decDigitsFuel (den + 4) r den))

/-! ### Rule variants (rule_model.py, BaseRule and subclasses)

The Python classes store `rule_type`, `name`, `enabled`, `comment` and
`priority` on the instance (`BaseRule.__init__`); note that no `unique_id`
field is stored at construction time.  `ClearanceRule` additionally stores
`min_clearance`, `unit` and the two scopes; the single-scope rules store
`scope`. -/

/-- ClearanceRule (electrical clearance rule). -/
structure ClearanceRule where
  name : String
  enabled : Bool
  comment : String
  priority : ℤ
  min_clearance : ℚ
  unit : UnitType
  source_scope : RuleScope
  target_scope : RuleScope
deriving DecidableEq, Repr

/-- ShortCircuitRule. -/
structure ShortCircuitRule where
  name : String
  enabled : Bool
  comment : String
  priority : ℤ
  scope : RuleScope
deriving DecidableEq, Repr

/-- UnRoutedNetRule. -/
structure UnRoutedNetRule where
  name : String
  enabled : Bool
  comment : String
  priority : ℤ
  scope : RuleScope
deriving DecidableEq, Repr

/-- The closed union of rule objects a RuleManager collection can hold. -/
inductive Rule where
  | clearance (r : ClearanceRule)
  | short_circuit (r : ShortCircuitRule)
  | unrouted_net (r : UnRoutedNetRule)
deriving DecidableEq, Repr

/-- The `name` attribute of a rule. -/
def Rule.name : Rule → String
  | .clearance r => r.name
  | .short_circuit r => r.name
  | .unrouted_net r => r.name

/-- The `rule_type` attribute of a rule. -/
def Rule.rule_type : Rule → RuleType
  | .clearance _ => .CLEARANCE
  | .short_circuit _ => .SHORT_CIRCUIT
  | .unrouted_net _ => .UNROUTED_NET

/-! ### Serialization to the pipe-delimited RUL line format -/

/-- Python `dict` as an association list in insertion order; `dictSet` is
item assignment: overwrite in place if the key exists, else append. -/
def dictSet (d : List (String × String)) (k v : String) : List (String × String) :=
  if (d.map Prod.fst).contains k then
    d.map (fun kv => if kv.1 = k then (k, v) else kv)
  else d ++ [(k, v)]

/-- Python `dict.update`: assign the items of the second dict in order. -/
def dictUpdate (d : List (String × String)) : List (String × String) → List (String × String)
  | [] => d
  | (k, v) :: rest => dictUpdate (dictSet d k v) rest

/-- Python `dict.get` with a default. -/
def dictGetD (d : List (String × String)) (k dflt : String) : String :=
  match d.find? (fun kv => kv.1 = k) with
  | some kv => kv.2
  | none => dflt

/-- BaseRule.get_base_rul_properties: the base property dictionary, in the
insertion order of the source's dict literal.  The UNIQUEID value is freshly
drawn from the process random source at each call
(`uuid.uuid4().hex[:8].upper()`); the draw is passed in explicitly as `uid`. -/
def get_base_rul_properties (rule_type : RuleType) (name : String) (enabled : Bool)
    (comment : String) (priority : ℤ) (uid : String) : List (String × String) :=
  [("SELECTION", "FALSE"),
   ("LAYER", "UNKNOWN"),
   ("LOCKED", "FALSE"),
   ("POLYGONOUTLINE", "FALSE"),
   ("USERROUTED", "TRUE"),
   ("KEEPOUT", "FALSE"),
   ("UNIONINDEX", "0"),
   ("RULEKIND", rule_type.value),
   ("NETSCOPE", "DifferentNets"),
   ("LAYERKIND", "SameLayer"),
   ("SCOPE1EXPRESSION", "All"),
   ("SCOPE2EXPRESSION", "All"),
   ("NAME", name),
   ("ENABLED", if enabled then "TRUE" else "FALSE"),
   ("PRIORITY", pyIntRepr priority),
   ("COMMENT", comment),
   ("UNIQUEID", uid),
   ("DEFINEDBYLOGICALDOCUMENT", "FALSE")]

/-- Lexicographic order on code points, on character lists (the comparison
Python uses for strings). -/
def charLe : List Char → List Char → Bool
  | [], _ => true
  | _ :: _, [] => false
  | c :: cs, d :: ds =>
    if c.toNat < d.toNat then true
    else if d.toNat < c.toNat then false
    else charLe cs ds

/-- Python string comparison: lexicographic by code point. -/
def strLe (a b : String) : Bool := charLe a.data b.data

/-- Insert a string into a sorted list, before any equal element. -/
def insertSorted (x : String) : List String → List String
  | [] => [x]
  | y :: ys => if strLe x y then x :: y :: ys else y :: insertSorted x ys

/-- Python `list.sort()` on strings: stable ascending sort by code points.
A stable sort is a unique function of the input list, so this insertion sort
is extensionally the very sort the source calls. -/
def pySort (l : List String) : List String := l.foldr insertSorted []

/-- BaseRule._build_rul_line: drop empty-valued fields, render `KEY=VALUE`,
sort alphabetically, join with the pipe character. -/
def build_rul_line (properties : List (String × String)) : String :=
  let line_parts := properties.filterMap
    (fun kv => if kv.2 = "" then none else some (kv.1 ++ "=" ++ kv.2))
  pyJoin "|" (pySort line_parts)

/-- The property dictionary built inside ClearanceRule.to_rul_format: the base
properties updated with the clearance-specific fields. -/
def ClearanceRule.rul_properties (r : ClearanceRule) (uid : String) : List (String × String) :=
  let properties := get_base_rul_properties .CLEARANCE r.name r.enabled r.comment r.priority uid
  dictUpdate properties
    [("SCOPE1EXPRESSION", r.source_scope.to_rul_fmt),
     ("SCOPE2EXPRESSION", r.target_scope.to_rul_fmt),
     ("GAP", pyFloatRepr r.min_clearance ++ r.unit.value),
     ("GENERICCLEARANCE", pyFloatRepr r.min_clearance ++ r.unit.value),
     ("IGNOREPADTOPADCLEARANCEINFOOTPRINT", "FALSE"),
     ("OBJECTCLEARANCES", " ")]

/-- ClearanceRule.to_rul_format: the property dictionary built into one
pipe-delimited line. -/
def ClearanceRule.to_rul_format (r : ClearanceRule) (uid : String) : String :=
  build_rul_line (r.rul_properties uid)

/-- ShortCircuitRule.to_rul_format. -/
def ShortCircuitRule.to_rul_format (r : ShortCircuitRule) (uid : String) : String :=
  let properties := get_base_rul_properties .SHORT_CIRCUIT r.name r.enabled r.comment r.priority uid
  let properties := dictUpdate properties
    [("SCOPE1EXPRESSION", r.scope.to_rul_fmt),
     ("SCOPE2EXPRESSION", r.scope.to_rul_fmt),
     ("ALLOWED", "FALSE")]
  build_rul_line properties

/-- UnRoutedNetRule.to_rul_format. -/
def UnRoutedNetRule.to_rul_format (r : UnRoutedNetRule) (uid : String) : String :=
  let properties := get_base_rul_properties .UNROUTED_NET r.name r.enabled r.comment r.priority uid
  let properties := dictUpdate properties
    [("SCOPE1EXPRESSION", r.scope.to_rul_fmt),
     ("SCOPE2EXPRESSION", "All"),
     ("CHECKBADCONNECTIONS", "TRUE")]
  build_rul_line properties

/-! ### Character-level models of the regular expressions used by the parsers

Each Python regex used by the source is deterministic on its input (greedy
repetition over character classes followed by a mandatory distinct character),
so it is modelled by a direct scanner.  `re.search`/`re.finditer` semantics:
try to match at each position from left to right; `finditer` resumes after the
end of the previous match (non-overlapping). -/

/-- Quote characters matched by the regex class holding the two quote marks. -/
def isQuoteChar (c : Char) : Bool := c = Char.ofNat 39 || c = Char.ofNat 34

/-- Word characters matched by regex `\w` (ASCII fragment). -/
def isWordChar (c : Char) : Bool := c.isAlpha || c.isDigit || c = Char.ofNat 95

/-- Characters allowed in a property value by the class excluding the two
quote marks, newline and the closing brace. -/
def isValueChar (c : Char) : Bool :=
  !isQuoteChar c && c ≠ Char.ofNat 10 && c ≠ Char.ofNat 125

/-- Identifier characters of the net-class name check (letters, digits,
underscore, hyphen). -/
def isIdentChar (c : Char) : Bool :=
  c.isAlpha || c.isDigit || c = Char.ofNat 95 || c = Char.ofNat 45

/-- The net-class name check: regex requiring one or more identifier
characters spanning the whole (already stripped) string. -/
def identMatch (l : List Char) : Bool := !l.isEmpty && l.all isIdentChar

/-- Match a literal character sequence, returning the remainder. -/
def dropLit : List Char → List Char → Option (List Char)
  | [], l => some l
  | _ :: _, [] => none
  | p :: ps, c :: cs => if c = p then dropLit ps cs else none

/-- Match the pattern holding literal InNetClass, an opening parenthesis, a
quote, the captured run of non-quote characters and a closing quote, at the
start of the input; return the capture and the remainder after the match. -/
def matchInNetClassAt (l : List Char) : Option (List Char × List Char) :=
  match dropLit "InNetClass(".data l with
  | none => none
  | some rest =>
    match rest with
    | [] => none
    | c :: rest2 =>
      if isQuoteChar c then
        let cap := rest2.takeWhile (fun d => !isQuoteChar d)
        match rest2.dropWhile (fun d => !isQuoteChar d) with
        | [] => none
        | _ :: rest3 => some (cap, rest3)
      else none

/-- re.search of the InNetClass pattern: first match anywhere. -/
def searchInNetClass : List Char → Option (List Char)
  | [] => none
  | c :: rest =>
    match matchInNetClassAt (c :: rest) with
    | some (cap, _) => some cap
    | none => searchInNetClass rest

/-- Fuel-based re.findall of the InNetClass pattern: all non-overlapping
matches, resuming after each match end. -/
def findallInNetClassAux : Nat → List Char → List (List Char)
  | 0, _ => []
  | fuel + 1, l =>
    match l with
    | [] => []
    | c :: rest =>
      match matchInNetClassAt (c :: rest) with
      | some (cap, rem) => cap :: findallInNetClassAux fuel rem
      | none => findallInNetClassAux fuel rest

/-- re.findall of the InNetClass pattern. -/
def findallInNetClass (l : List Char) : List (List Char) :=
  findallInNetClassAux l.length l

/-- Match a quote, a run of non-quote characters and a closing quote at the
start of the input, returning the capture. -/
def matchQuotedAt (l : List Char) : Option (List Char) :=
  match l with
  | [] => none
  | c :: rest =>
    if isQuoteChar c then
      let cap := rest.takeWhile (fun d => !isQuoteChar d)
      match rest.dropWhile (fun d => !isQuoteChar d) with
      | [] => none
      | _ :: _ => some cap
    else none

/-- re.search of the quoted pattern: first match anywhere. -/
def searchQuoted : List Char → Option (List Char)
  | [] => none
  | c :: rest =>
    match matchQuotedAt (c :: rest) with
    | some cap => some cap
    | none => searchQuoted rest

/-- Match the rule-block pattern (literal Rule, optional whitespace, an open
brace, a run of non-close-brace characters, a close brace) at the start of the
input, returning the whole matched text and the remainder. -/
def matchRuleBlockAt (l : List Char) : Option (List Char × List Char) :=
  match dropLit "Rule".data l with
  | none => none
  | some rest =>
    let sp := rest.takeWhile pyIsSpace
    match rest.dropWhile pyIsSpace with
    | [] => none
    | c :: rest2 =>
      if c = Char.ofNat 123 then
        let body := rest2.takeWhile (fun d => d ≠ Char.ofNat 125)
        match rest2.dropWhile (fun d => d ≠ Char.ofNat 125) with
        | [] => none
        | _ :: rest3 =>
          some ("Rule".data ++ sp ++ Char.ofNat 123 :: body ++ [Char.ofNat 125], rest3)
      else none

/-- Fuel-based re.findall of the rule-block pattern. -/
def extractBlocksAux : Nat → List Char → List (List Char)
  | 0, _ => []
  | fuel + 1, l =>
    match l with
    | [] => []
    | c :: rest =>
      match matchRuleBlockAt (c :: rest) with
      | some (block, rem) => block :: extractBlocksAux fuel rem
      | none => extractBlocksAux fuel rest

/-- The `_extract_rule_blocks` method (defined identically in RuleManager and
RuleGenerator): all rule blocks of the content, in order. -/
def extract_rule_blocks (rul_content : String) : List String :=
  (extractBlocksAux rul_content.data.length rul_content.data).map String.mk

/-- Match the property pattern (mandatory whitespace, a captured word-character
key, optional whitespace, an equals sign, optional whitespace, an optional
quote, the captured value over the value character class, an optional closing
quote, trailing whitespace) at the start of the input; return key, value and
the remainder after the match. -/
def matchPropAt (l : List Char) : Option ((List Char × List Char) × List Char) :=
  match l with
  | [] => none
  | c :: _ =>
    if pyIsSpace c then
      let rest := l.dropWhile pyIsSpace
      let key := rest.takeWhile isWordChar
      if key.isEmpty then none
      else
        let rest2 := (rest.dropWhile isWordChar).dropWhile pyIsSpace
        match rest2 with
        | [] => none
        | e :: rest3 =>
          if e = Char.ofNat 61 then
            let rest4 := rest3.dropWhile pyIsSpace
            let rest5 := match rest4 with
              | d :: tail => if isQuoteChar d then tail else rest4
              | [] => rest4
            let value := rest5.takeWhile isValueChar
            let rest6 := rest5.dropWhile isValueChar
            let rest7 := match rest6 with
              | d :: tail => if isQuoteChar d then tail else rest6
              | [] => rest6
            some ((key, value), rest7.dropWhile pyIsSpace)
          else none
    else none

/-- Fuel-based re.finditer over the property pattern, building the property
dictionary (later assignments overwrite); values are stripped. -/
def extractPropsAux : Nat → List Char → List (String × String) → List (String × String)
  | 0, _, acc => acc
  | fuel + 1, l, acc =>
    match l with
    | [] => acc
    | _ :: rest =>
      match matchPropAt l with
      | some ((k, v), rem) =>
        extractPropsAux fuel rem (dictSet acc (String.mk k) (String.mk (pyStripChars v)))
      | none => extractPropsAux fuel rest acc

/-- RuleManager._extract_rule_properties: all properties found in a block. -/
def RuleManager.extract_rule_properties (block : String) : List (String × String) :=
  extractPropsAux block.data.length block.data []

/-! ### Python numeric conversions used by the parsers -/

/-- Numeric value of a list of decimal digit characters. -/
def digitsToNat (l : List Char) : ℕ :=
  l.foldl (fun acc c => acc * 10 + (c.toNat - 48)) 0

/-- Python `int(str)`: strip, optional sign, one or more digits; `none` models
the ValueError raised otherwise (digit-group underscores are not modelled). -/
def pyParseInt (s : String) : Option ℤ :=
  let l := pyStripChars s.data
  let sign : ℤ := match l with
    | c :: _ => if c = Char.ofNat 45 then -1 else 1
    | [] => 1
  let l2 := match l with
    | c :: rest => if c = Char.ofNat 45 || c = Char.ofNat 43 then rest else l
    | [] => l
  if l2.isEmpty || !l2.all Char.isDigit then none
  else some (sign * (digitsToNat l2 : ℤ))

/-- Python `float(str)` restricted to plain decimal forms: strip, optional
sign, digits with an optional fractional part (at least one digit overall);
`none` models the ValueError (exponent forms, inf and nan are not modelled;
the source only feeds this plain decimals or garbage that defaults). -/
def pyParseFloat (s : String) : Option ℚ :=
  let l := pyStripChars s.data
  let sign : ℚ := match l with
    | c :: _ => if c = Char.ofNat 45 then -1 else 1
    | [] => 1
  let l2 := match l with
    | c :: rest => if c = Char.ofNat 45 || c = Char.ofNat 43 then rest else l
    | [] => l
  let ip := l2.takeWhile Char.isDigit
  let rest := l2.dropWhile Char.isDigit
  match rest with
  | [] => if ip.isEmpty then none else some (sign * (digitsToNat ip : ℚ))
  | c :: frac =>
    if c = Char.ofNat 46 ∧ frac.all Char.isDigit ∧ !(ip.isEmpty ∧ frac.isEmpty) then
      some (sign * ((digitsToNat (ip ++ frac) : ℚ) / (10 : ℚ) ^ frac.length))
    else none

/-! ### RuleManager parsing (rule_model.py) -/

/-- Python `str.upper()` (ASCII fragment). -/
def pyUpper (s : String) : String := String.mk (s.data.map Char.toUpper)

/-- RuleManager._parse_scope: empty or "all" (case-insensitive after strip)
gives All; a searched InNetClass capture that strips to a non-empty identifier
gives NetClass; otherwise, with a literal " OR " present, all InNetClass
captures give NetClasses; otherwise a searched quoted capture gives Custom;
otherwise Custom carrying the raw string. -/
def RuleManager.parse_scope (scope_str : String) : RuleScope :=
  if scope_str = "" || pyLower (pyStrip scope_str) = "all" then ⟨"All", []⟩
  else
    let step1 : Option RuleScope :=
      match searchInNetClass scope_str.data with
      | some g =>
        let net_class_name := pyStripChars g
        if identMatch net_class_name then some ⟨"NetClass", [String.mk net_class_name]⟩
        else none
      | none => none
    match step1 with
    | some r => r
    | none =>
      let step2 : Option RuleScope :=
        if containsSub scope_str.data " OR ".data then
          match findallInNetClass scope_str.data with
          | [] => none
          | ms => some ⟨"NetClasses", ms.map String.mk⟩
        else none
      match step2 with
      | some r => r
      | none =>
        match searchQuoted scope_str.data with
        | some g => ⟨"Custom", [String.mk g]⟩
        | none => ⟨"Custom", [scope_str]⟩

/-- RuleManager._create_clearance_rule.  `int(...)` on a malformed Priority
raises and is caught by the method's own except-handler, returning None;
malformed MinimumClearance and MinimumClearanceType fall back to 10.0 and MIL
with a warning. -/
def RuleManager.create_clearance_rule (properties : List (String × String)) :
    Option ClearanceRule :=
  let name := dictGetD properties "Name" ""
  let enabled := pyUpper (dictGetD properties "Enabled" "TRUE") = "TRUE"
  let comment := dictGetD properties "Comment" ""
  match pyParseInt (dictGetD properties "Priority" "1") with
  | none => none
  | some priority =>
    let min_clearance := match pyParseFloat (dictGetD properties "MinimumClearance" "10.0") with
      | some v => v
      | none => (10 : ℚ)
    let unit := match UnitType.from_string (dictGetD properties "MinimumClearanceType" "mil") with
      | some u => u
      | none => UnitType.MIL
    let source_scope := RuleManager.parse_scope (dictGetD properties "SourceScope" "")
    let target_scope := RuleManager.parse_scope (dictGetD properties "TargetScope" "")
    some ⟨name, enabled, comment, priority, min_clearance, unit, source_scope, target_scope⟩

/-- RuleManager._create_short_circuit_rule. -/
def RuleManager.create_short_circuit_rule (properties : List (String × String)) :
    Option ShortCircuitRule :=
  let name := dictGetD properties "Name" ""
  let enabled := pyUpper (dictGetD properties "Enabled" "TRUE") = "TRUE"
  let comment := dictGetD properties "Comment" ""
  match pyParseInt (dictGetD properties "Priority" "1") with
  | none => none
  | some priority =>
    let scope := RuleManager.parse_scope (dictGetD properties "Scope" "")
    some ⟨name, enabled, comment, priority, scope⟩

/-- RuleManager._create_unrouted_net_rule. -/
def RuleManager.create_unrouted_net_rule (properties : List (String × String)) :
    Option UnRoutedNetRule :=
  let name := dictGetD properties "Name" ""
  let enabled := pyUpper (dictGetD properties "Enabled" "TRUE") = "TRUE"
  let comment := dictGetD properties "Comment" ""
  match pyParseInt (dictGetD properties "Priority" "1") with
  | none => none
  | some priority =>
    let scope := RuleManager.parse_scope (dictGetD properties "Scope" "")
    some ⟨name, enabled, comment, priority, scope⟩

/-- RuleManager._parse_rule_block: extract the properties, require Name and
RuleKind to be present and non-empty, dispatch on RuleKind. -/
def RuleManager.parse_rule_block (block : String) : Option Rule :=
  let properties := RuleManager.extract_rule_properties block
  if dictGetD properties "Name" "" = "" || dictGetD properties "RuleKind" "" = "" then none
  else
    let rule_kind := dictGetD properties "RuleKind" ""
    if rule_kind = "Clearance" then
      (RuleManager.create_clearance_rule properties).map Rule.clearance
    else if rule_kind = "ShortCircuit" then
      (RuleManager.create_short_circuit_rule properties).map Rule.short_circuit
    else if rule_kind = "UnroutedNet" then
      (RuleManager.create_unrouted_net_rule properties).map Rule.unrouted_net
    else none

/-- RuleManager.from_rul_content: reset the collection, extract the blocks
(failure if none), parse each block collecting the successes, and report
success exactly when at least one rule was parsed.  The returned pair is the
success flag together with the collection the manager ends up holding. -/
def RuleManager.from_rul_content (rul_content : String) : Bool × List Rule :=
  let rule_blocks := extract_rule_blocks rul_content
  if rule_blocks.isEmpty then (false, [])
  else
    let rules := rule_blocks.filterMap RuleManager.parse_rule_block
    if rules.length = 0 then (false, rules) else (true, rules)

/-- RuleManager.delete_rule: rebuild the collection keeping the rules whose
name differs, and report whether the collection shrank. -/
def RuleManager.delete_rule (rules : List Rule) (rule_name : String) :
    List Rule × Bool :=
  let initial_length := rules.length
  let new_rules := rules.filter (fun rule => rule.name ≠ rule_name)
  if new_rules.length < initial_length then (new_rules, true) else (new_rules, false)

/-! ### RuleGenerator parsing (rule_generator.py) -/

/-- Match the named-property pattern (mandatory whitespace, the literal
property name, optional whitespace, an equals sign, optional whitespace, an
optional quote, the captured value, an optional closing quote) at the start of
the input, returning the capture. -/
def matchNamedPropAt (pname : List Char) (l : List Char) : Option (List Char) :=
  match l with
  | [] => none
  | c :: _ =>
    if pyIsSpace c then
      let rest := l.dropWhile pyIsSpace
      match dropLit pname rest with
      | none => none
      | some rest2 =>
        match rest2.dropWhile pyIsSpace with
        | [] => none
        | e :: rest3 =>
          if e = Char.ofNat 61 then
            let rest4 := rest3.dropWhile pyIsSpace
            let rest5 := match rest4 with
              | d :: tail => if isQuoteChar d then tail else rest4
              | [] => rest4
            some (rest5.takeWhile isValueChar)
          else none
    else none

/-- re.search of the named-property pattern: first match anywhere. -/
def searchNamedProp (pname : List Char) : List Char → Option (List Char)
  | [] => none
  | c :: rest =>
    match matchNamedPropAt pname (c :: rest) with
    | some cap => some cap
    | none => searchNamedProp pname rest

/-- RuleGenerator._extract_property: the stripped capture of the first match,
or the empty string. -/
def RuleGenerator.extract_property (block property_name : String) : String :=
  match searchNamedProp property_name.data block.data with
  | some v => String.mk (pyStripChars v)
  | none => ""

/-- RuleGenerator._parse_scope: empty or exactly "All" gives All; an anchored
InNetClass match gives NetClass (no strip, no identifier check); an anchored
InNetClasses match splits its capture on semicolons into NetClasses; an
anchored quoted match splits into Custom; otherwise All. -/
def RuleGenerator.parse_scope (scope_str : String) : RuleScope :=
  if scope_str = "" || scope_str = "All" then ⟨"All", []⟩
  else
    match matchInNetClassAt scope_str.data with
    | some (g, _) => ⟨"NetClass", [String.mk g]⟩
    | none =>
      match (dropLit "InNetClasses(".data scope_str.data).bind matchQuotedAt with
      | some g => ⟨"NetClasses", (String.mk g).splitOn ";"⟩
      | none =>
        match matchQuotedAt scope_str.data with
        | some g => ⟨"Custom", (String.mk g).splitOn ";"⟩
        | none => ⟨"All", []⟩

/-- RuleGenerator._parse_clearance_rule: requires MinimumClearance to be
present; malformed values fall back to 10.0 and MIL; absent scopes default
to All. -/
def RuleGenerator.parse_clearance_rule (block name : String) (enabled : Bool)
    (comment : String) (priority : ℤ) : Option ClearanceRule :=
  let min_clearance_str := RuleGenerator.extract_property block "MinimumClearance"
  let min_clearance_type := RuleGenerator.extract_property block "MinimumClearanceType"
  let source_scope_str := RuleGenerator.extract_property block "SourceScope"
  let target_scope_str := RuleGenerator.extract_property block "TargetScope"
  if min_clearance_str = "" then none
  else
    let min_clearance := match pyParseFloat min_clearance_str with
      | some v => v
      | none => (10 : ℚ)
    let unit := if min_clearance_type ≠ "" then
        match UnitType.from_string min_clearance_type with
        | some u => u
        | none => UnitType.MIL
      else UnitType.MIL
    let source_scope := if source_scope_str ≠ "" then RuleGenerator.parse_scope source_scope_str
      else ⟨"All", []⟩
    let target_scope := if target_scope_str ≠ "" then RuleGenerator.parse_scope target_scope_str
      else ⟨"All", []⟩
    some ⟨name, enabled, comment, priority, min_clearance, unit, source_scope, target_scope⟩

/-- RuleGenerator._parse_short_circuit_rule. -/
def RuleGenerator.parse_short_circuit_rule (block name : String) (enabled : Bool)
    (comment : String) (priority : ℤ) : Option ShortCircuitRule :=
  let scope_str := RuleGenerator.extract_property block "Scope"
  let scope := if scope_str ≠ "" then RuleGenerator.parse_scope scope_str else ⟨"All", []⟩
  some ⟨name, enabled, comment, priority, scope⟩

/-- RuleGenerator._parse_unrouted_net_rule. -/
def RuleGenerator.parse_unrouted_net_rule (block name : String) (enabled : Bool)
    (comment : String) (priority : ℤ) : Option UnRoutedNetRule :=
  let scope_str := RuleGenerator.extract_property block "Scope"
  let scope := if scope_str ≠ "" then RuleGenerator.parse_scope scope_str else ⟨"All", []⟩
  some ⟨name, enabled, comment, priority, scope⟩

/-- RuleGenerator._parse_rule_block: extract the shared fields with the
named-property search, require Name and RuleKind, dispatch on RuleKind. -/
def RuleGenerator.parse_rule_block (block : String) : Option Rule :=
  let name := RuleGenerator.extract_property block "Name"
  let enabled_str := RuleGenerator.extract_property block "Enabled"
  let enabled := if enabled_str ≠ "" then pyLower enabled_str = "true" else true
  let comment := RuleGenerator.extract_property block "Comment"
  let priority_str := RuleGenerator.extract_property block "Priority"
  let priority : ℤ :=
    if priority_str ≠ "" ∧ priority_str.data.all Char.isDigit then
      (digitsToNat priority_str.data : ℤ)
    else 1
  let rule_kind := RuleGenerator.extract_property block "RuleKind"
  if name = "" || rule_kind = "" then none
  else if rule_kind = "Clearance" then
    (RuleGenerator.parse_clearance_rule block name enabled comment priority).map Rule.clearance
  else if rule_kind = "ShortCircuit" then
    (RuleGenerator.parse_short_circuit_rule block name enabled comment priority).map Rule.short_circuit
  else if rule_kind = "UnroutedNet" then
    (RuleGenerator.parse_unrouted_net_rule block name enabled comment priority).map Rule.unrouted_net
  else none

/-- RuleGenerator.parse_rul_content: clear the collection, extract the blocks
(failure only if none), parse each block collecting the successes, and return
True whenever at least one block was found, regardless of how many rules were
actually recognized. -/
def RuleGenerator.parse_rul_content (rul_content : String) : Bool × List Rule :=
  let rule_blocks := extract_rule_blocks rul_content
  if rule_blocks.isEmpty then (false, [])
  else (true, rule_blocks.filterMap RuleGenerator.parse_rule_block)

/-! ### Excel pivot data (excel_data.py)

Numeric cells are `Option ℚ`: `none` is the missing marker (NaN or an empty
cell), `some v` a numeric value.  Non-string row/column headers and string
cells (possible in pandas with object dtype) are outside the model; the empty
string, which the source also skips, is representable.  A `DFrame` is the
tabular boundary shape: column names (whose first entry is the row-header
column) and data rows carrying the first-column label and the numeric body. -/

/-- The tabular data handed to load_dataframe. -/
structure DFrame where
  columns : List String
  rows : List (String × List (Option ℚ))
deriving DecidableEq, Repr

/-- Number of data rows (pandas `df.shape[0]`). -/
def DFrame.shape0 (df : DFrame) : ℕ := df.rows.length

/-- Number of columns including the row-header column (pandas `df.shape[1]`). -/
def DFrame.shape1 (df : DFrame) : ℕ := df.columns.length

/-- pandas `df.empty`: some axis has length zero. -/
def DFrame.isEmptyDf (df : DFrame) : Bool := df.shape0 = 0 || df.shape1 = 0

/-- The instance state of an ExcelPivotData object. -/
structure ExcelPivotData where
  rule_type : Option RuleType
  pivot_df : Option DFrame
  column_index : Option (List String)
  row_index : Option (List String)
  values : Option (List (List (Option ℚ)))
  unit : UnitType
deriving DecidableEq, Repr

/-- A freshly constructed ExcelPivotData (its `__init__`). -/
def ExcelPivotData.init (rule_type : Option RuleType) : ExcelPivotData :=
  ⟨rule_type, none, none, none, none, UnitType.MIL⟩

/-- ExcelPivotData.load_dataframe: store the frame and unit, reject frames
smaller than 2 x 2 (returning false with no indices extracted), otherwise
extract the column index (all but the first column name), the row index (the
first-column values) and the numeric body, returning true. -/
def ExcelPivotData.load_dataframe (st : ExcelPivotData) (df : DFrame) (unit : UnitType) :
    Bool × ExcelPivotData :=
  let st := { st with pivot_df := some df, unit := unit }
  if df.isEmptyDf || df.shape0 < 2 || df.shape1 < 2 then (false, st)
  else
    (true, { st with
      column_index := some (df.columns.drop 1),
      row_index := some (df.rows.map Prod.fst),
      values := some (df.rows.map Prod.snd) })

/-- The name sanitization of to_clearance_rules: replace spaces and slashes
with underscores. -/
def sanitizeName (s : String) : String :=
  String.mk (s.data.map (fun c =>
    if c = Char.ofNat 32 || c = Char.ofNat 47 || c = Char.ofNat 92 then Char.ofNat 95 else c))

/-- The body of the inner (column) loop of to_clearance_rules: one cell visit.
Skips empty column headers and missing, zero or negative cells; otherwise
appends the rule and bumps the priority counter.  Out-of-range accesses into
the body (an IndexError in Python, impossible for a frame accepted by
load_dataframe) are treated as missing. -/
def to_clearance_cell_step (vals : List (List (Option ℚ))) (unit : UnitType)
    (rule_name_pre : String) (row : ℕ × String) (acc : List ClearanceRule × ℕ)
    (col : ℕ × String) : List ClearanceRule × ℕ :=
  if col.2 = "" then acc
  else
    match ((vals.get? row.1).bind (fun r => r.get? col.1)).join with
    | none => acc
    | some clearance_value =>
      if clearance_value = 0 then acc
      else if clearance_value < 0 then acc
      else
        let safe_row_name := sanitizeName row.2
        let safe_col_name := sanitizeName col.2
        let rule_name := rule_name_pre ++ safe_row_name ++ "_to_" ++ safe_col_name
        let rule : ClearanceRule :=
          ⟨rule_name, true,
           "Clearance between NetClass \x27" ++ row.2 ++ "\x27 and NetClass \x27" ++
             col.2 ++ "\x27",
           (acc.2 : ℤ), clearance_value, unit,
           ⟨"NetClass", [row.2]⟩, ⟨"NetClass", [col.2]⟩⟩
        (acc.1 ++ [rule], acc.2 + 1)

/-- The body of the outer (row) loop of to_clearance_rules: skip empty row
headers, otherwise visit every column of the row. -/
def to_clearance_row_step (colIndex : List String) (vals : List (List (Option ℚ)))
    (unit : UnitType) (rule_name_pre : String) (acc : List ClearanceRule × ℕ)
    (row : ℕ × String) : List ClearanceRule × ℕ :=
  if row.2 = "" then acc
  else colIndex.enum.foldl (to_clearance_cell_step vals unit rule_name_pre row) acc

/-- ExcelPivotData.to_clearance_rules: walk the matrix in row-major order,
skip empty headers and missing, zero or negative cells, and emit one
ClearanceRule per remaining cell, with a priority counter that starts at 1 and
increments per emitted rule. -/
def ExcelPivotData.to_clearance_rules (st : ExcelPivotData) (rule_name_pre : String) :
    List ClearanceRule :=
  match st.pivot_df, st.values, st.row_index, st.column_index with
  | some _, some vals, some rowIndex, some colIndex =>
    (rowIndex.enum.foldl (to_clearance_row_step colIndex vals st.unit rule_name_pre)
      ([], 1)).1
  | _, _, _, _ => []

/-- The name-gathering loop of from_clearance_rules: every first item of a
NetClass source or target scope, in rule order. -/
def collectNetClassesNames (rules : List ClearanceRule) : List String :=
  rules.foldl (fun acc rule =>
    let acc := if rule.source_scope.scope_type = "NetClass" ∧ rule.source_scope.items ≠ [] then
        acc ++ [rule.source_scope.items.headI] else acc
    if rule.target_scope.scope_type = "NetClass" ∧ rule.target_scope.items ≠ [] then
      acc ++ [rule.target_scope.items.headI] else acc) []

/-- The net-class collection of from_clearance_rules: the gathered names,
deduplicated and sorted (Python builds a set and sorts it). -/
def collectNetClasses (rules : List ClearanceRule) : List String :=
  pySort (collectNetClassesNames rules).dedup

/-- One `df.loc[source, target] = min_clearance` assignment of
from_clearance_rules, guarded exactly as in the source. -/
def ruleWrite (net_classes : List String) (df : List (List (Option ℚ)))
    (rule : ClearanceRule) : List (List (Option ℚ)) :=
  if rule.source_scope.scope_type = "NetClass" ∧ rule.source_scope.items ≠ [] ∧
     rule.target_scope.scope_type = "NetClass" ∧ rule.target_scope.items ≠ [] then
    let source_class := rule.source_scope.items.headI
    let target_class := rule.target_scope.items.headI
    if source_class ∈ net_classes ∧ target_class ∈ net_classes then
      let i := net_classes.indexOf source_class
      let j := net_classes.indexOf target_class
      df.set i ((df.getD i []).set j (some rule.min_clearance))
    else df
  else df

/-- ExcelPivotData.from_clearance_rules: None on an empty rule list; otherwise
build the square frame over the sorted net-class union (row-header column
first), fill it with the missing marker, apply every rule's write, and load it
into a fresh ExcelPivotData with the first rule's unit (the load result flag
is ignored by the source). -/
def ExcelPivotData.from_clearance_rules (rules : List ClearanceRule) :
    Option ExcelPivotData :=
  if rules.isEmpty then none
  else
    let net_classes := collectNetClasses rules
    let df0 : List (List (Option ℚ)) := net_classes.map (fun _ => net_classes.map (fun _ => none))
    let body := rules.foldl (ruleWrite net_classes) df0
    let df : DFrame := ⟨"NetClass" :: net_classes, net_classes.zip body⟩
    let unit := match rules with
      | rule :: _ => rule.unit
      | [] => UnitType.MIL
    some ((ExcelPivotData.init (some .CLEARANCE)).load_dataframe df unit).2

/-! ### Claim-side definitions and shared example inputs -/

/-- Modelled from the claim for C6: remove only the first exact-name match and
report whether anything was removed. -/
def removeFirstByName (rules : List Rule) (rule_name : String) : List Rule × Bool :=
  (rules.eraseP (fun rule => rule.name = rule_name),
   rules.any (fun rule => rule.name = rule_name))

/-- The spec's example clearance rule (name C1, 8.5 mil, Power against
Ground). -/
def exClearanceRule : ClearanceRule :=
  ⟨"C1", true, "", 1, ⟨17, 2, by decide, by decide⟩, .MIL,
   ⟨"NetClass", ["Power"]⟩, ⟨"NetClass", ["Ground"]⟩⟩

/-- A rule-file text holding one block with an unknown RuleKind. -/
def ruleFooInput : String := "Rule \x7b Name = \x27X\x27 RuleKind = \x27Foo\x27 \x7d"

/-- Two distinct rules sharing the name X. -/
def dupRuleA : Rule := .clearance ⟨"X", true, "", 1, 1, .MIL, ⟨"All", []⟩, ⟨"All", []⟩⟩

/-- Second rule named X. -/
def dupRuleB : Rule := .short_circuit ⟨"X", true, "", 2, ⟨"All", []⟩⟩

/-- The concrete double `1 + 108086391057003 * 2^-52` whose INCH-to-INCH
conversion is not bit-for-bit exact. -/
def c8Double : Frac := ⟨4611686018427499, 4503599627370496⟩

/-- The well-formedness the claim presupposes for non-Custom scopes. -/
def WfNonCustomScope (s : RuleScope) : Prop :=
  (s.scope_type = "All" ∧ s.items = []) ∨
  (s.scope_type = "NetClass" ∧ ∃ n, s.items = [n] ∧ n ≠ "") ∨
  (s.scope_type = "NetClasses" ∧ s.items ≠ [] ∧ ∀ n ∈ s.items, n ≠ "")

/-- Modelled from the claim for C5: the matrix cell at a row/column index
pair (missing when out of range). -/
def cellAt (vals : List (List (Option ℚ))) (i j : ℕ) : Option ℚ :=
  ((vals.get? i).bind (fun r => r.get? j)).join

/-- Modelled from the claim for C5: a cell that remains after dropping
missing, zero and negative values, whatever the labels; yields the row label,
column label and value. -/
def claimCellPred (vals : List (List (Option ℚ))) (row col : ℕ × String) :
    Option (String × String × ℚ) :=
  match cellAt vals row.1 col.1 with
  | some v => if 0 < v then some (row.2, col.2, v) else none
  | none => none

/-- Modelled from the claim for C5: all remaining cells in row-major order. -/
def claimCells (rowIndex colIndex : List String) (vals : List (List (Option ℚ))) :
    List (String × String × ℚ) :=
  (rowIndex.enum.map (fun row => colIndex.enum.filterMap (claimCellPred vals row))).flatten

/-- The amended cell collection: as the claim says, except that cells whose
row or column label is the empty string are skipped as well (the code's header
guards). -/
def amendedCells (rowIndex colIndex : List String) (vals : List (List (Option ℚ))) :
    List (String × String × ℚ) :=
  (rowIndex.enum.map (fun row =>
    if row.2 = "" then []
    else colIndex.enum.filterMap (fun col =>
      if col.2 = "" then none else claimCellPred vals row col))).flatten

/-- The rule the claim describes for a remaining cell: source and target
scopes are NetClass of the labels, the value and unit are the cell value and
matrix unit; the name and comment, which the claim leaves open, are written
as the code derives them. -/
def mkCellRule (rule_name_pre : String) (unit : UnitType) (cell : String × String × ℚ)
    (priority : ℕ) : ClearanceRule :=
  ⟨rule_name_pre ++ sanitizeName cell.1 ++ "_to_" ++ sanitizeName cell.2.1, true,
   "Clearance between NetClass \x27" ++ cell.1 ++ "\x27 and NetClass \x27" ++
     cell.2.1 ++ "\x27",
   (priority : ℤ), cell.2.2, unit, ⟨"NetClass", [cell.1]⟩, ⟨"NetClass", [cell.2.1]⟩⟩

/-- One rule per kept cell, priorities consecutive from the start value. -/
def rulesFrom (unit : UnitType) (rule_name_pre : String) :
    ℕ → List (String × String × ℚ) → List ClearanceRule
  | _, [] => []
  | k, e :: rest => mkCellRule rule_name_pre unit e k :: rulesFrom unit rule_name_pre (k + 1) rest

/-- Modelled from the claim for C7: a rule whose source scope is NetClass(s)
and target scope is NetClass(t) (first item of each scope). -/
def ruleSetsB (s t : String) (r : ClearanceRule) : Bool :=
  decide (r.source_scope.scope_type = "NetClass" ∧ r.source_scope.items ≠ [] ∧
    r.source_scope.items.headI = s ∧
    r.target_scope.scope_type = "NetClass" ∧ r.target_scope.items ≠ [] ∧
    r.target_scope.items.headI = t)

/-- Modelled from the claim for C7: the value of the cell at labels (s, t):
the clearance of the last rule writing it, missing when no rule does. -/
def clearanceCellSpec (rules : List ClearanceRule) (s t : String) : Option ℚ :=
  ((rules.filter (ruleSetsB s t)).getLast?).map (fun r => r.min_clearance)

/-- Modelled from the claim for C7: the full matrix body over the labels. -/
def specMatrix (rules : List ClearanceRule) (labels : List String) :
    List (List (Option ℚ)) :=
  labels.map (fun s => labels.map (fun t => clearanceCellSpec rules s t))

/-- Modelled from the claim for C7: every NetClass name occurring in a
source or target scope of a rule, in order of occurrence. -/
def ruleNetClassNames (rules : List ClearanceRule) : List String :=
  (rules.map (fun r =>
    (if r.source_scope.scope_type = "NetClass" ∧ r.source_scope.items ≠ [] then
      [r.source_scope.items.headI] else []) ++
    (if r.target_scope.scope_type = "NetClass" ∧ r.target_scope.items ≠ [] then
      [r.target_scope.items.headI] else []))).flatten

/-- Modelled from the claim for C7: labels are the sorted union of the
NetClass names: strictly ascending in code-point order and holding exactly
the names that occur. -/
def IsSortedUnion (labels : List String) (rules : List ClearanceRule) : Prop :=
  labels.Pairwise (fun a b => strLe a b = true ∧ a ≠ b) ∧
  ∀ x, x ∈ labels ↔ x ∈ ruleNetClassNames rules
/-- A clearance rule between two distinct net classes (used as the C7
witness input). -/
def c7TwoClassRule : ClearanceRule :=
  ⟨"r", true, "", 1, 5, .MM, ⟨"NetClass", ["A"]⟩, ⟨"NetClass", ["A2"]⟩⟩

/-- A clearance rule whose source and target name the same net class (used
as the C7 counterexample input). -/
def c7OneClassRule : ClearanceRule :=
  ⟨"r", true, "", 1, 5, .MM, ⟨"NetClass", ["A"]⟩, ⟨"NetClass", ["A"]⟩⟩

/-! ### Helper lemmas -/

/-- The property dictionary of a clearance rule maps UNIQUEID to the draw. -/
theorem rul_properties_uniqueid (r : ClearanceRule) (u : String) :
    dictGetD (r.rul_properties u) "UNIQUEID" "" = u := by
  simp [ClearanceRule.rul_properties, get_base_rul_properties, dictUpdate, dictSet, dictGetD]


/-! ### Helper lemmas for the scope round-trip (C2) -/

theorem dropLit_append (p rest : List Char) : dropLit p (p ++ rest) = some rest := by
  induction p with
  | nil => rfl
  | cons c cs ih => simp [dropLit, ih]

theorem takeWhile_all_append (p : Char → Bool) (l : List Char) (d : Char) (rest : List Char)
    (h : ∀ c ∈ l, p c = true) (hd : p d = false) :
    (l ++ d :: rest).takeWhile p = l ∧ (l ++ d :: rest).dropWhile p = d :: rest := by
  induction l with
  | nil => simp [List.takeWhile, List.dropWhile, hd]
  | cons c cs ih =>
    have hc : p c = true := h c (List.mem_cons_self c cs)
    have ih2 := ih (fun x hx => h x (List.mem_cons_of_mem c hx))
    simp [List.takeWhile, List.dropWhile, hc, ih2.1, ih2.2]

theorem identChar_not_quote {c : Char} (h : isIdentChar c = true) : isQuoteChar c = false := by
  by_contra hq
  rw [Bool.not_eq_false] at hq
  simp only [isQuoteChar, Bool.or_eq_true, decide_eq_true_eq] at hq
  rcases hq with rfl | rfl <;> simp [isIdentChar] at h

theorem identChar_not_space {c : Char} (h : isIdentChar c = true) : pyIsSpace c = false := by
  by_contra hs
  rw [Bool.not_eq_false] at hs
  simp [pyIsSpace, pySpaceChars] at hs
  rcases hs with rfl | rfl | rfl | rfl | rfl | rfl <;> simp [isIdentChar] at h

theorem dropWhile_eq_self_of_none (p : Char → Bool) (l : List Char)
    (h : ∀ c ∈ l, p c = false) : l.dropWhile p = l := by
  cases l with
  | nil => rfl
  | cons c cs => simp [List.dropWhile, h c (List.mem_cons_self c cs)]

theorem pyStripChars_of_no_space (l : List Char) (h : ∀ c ∈ l, pyIsSpace c = false) :
    pyStripChars l = l := by
  unfold pyStripChars stripRightChars
  rw [dropWhile_eq_self_of_none pyIsSpace l h]
  rw [dropWhile_eq_self_of_none pyIsSpace l.reverse (fun c hc => h c (List.mem_reverse.mp hc))]
  exact List.reverse_reverse l

theorem matchInNetClassAt_shape (body rest : List Char)
    (h : ∀ c ∈ body, isQuoteChar c = false) :
    matchInNetClassAt ("InNetClass(".data ++ Char.ofNat 39 :: (body ++ Char.ofNat 39 :: rest)) =
      some (body, rest) := by
  have hq : isQuoteChar (Char.ofNat 39) = true := by decide
  have hb : ∀ c ∈ body, (fun d => !isQuoteChar d) c = true := by
    intro c hc
    simp [h c hc]
  have hd : (fun d => !isQuoteChar d) (Char.ofNat 39) = false := by decide
  have htd := takeWhile_all_append (fun d => !isQuoteChar d) body (Char.ofNat 39) rest hb hd
  simp only [matchInNetClassAt, dropLit_append, hq, if_true, htd.1, htd.2]

theorem searchInNetClass_head (c : Char) (cs : List Char) (cap rem : List Char)
    (h : matchInNetClassAt (c :: cs) = some (cap, rem)) :
    searchInNetClass (c :: cs) = some cap := by
  simp [searchInNetClass, h]

theorem dropWhile_suffix_ex (p : Char → Bool) (l : List Char) : ∃ s, s ++ l.dropWhile p = l := by
  induction l with
  | nil => exact ⟨[], rfl⟩
  | cons x xs ih =>
    by_cases hx : p x = true
    · obtain ⟨s, hs⟩ := ih
      exact ⟨x :: s, by simp [List.dropWhile, hx, hs]⟩
    · rw [Bool.not_eq_true] at hx
      exact ⟨[], by simp [List.dropWhile, hx]⟩

theorem stripRight_prefix_ex (l : List Char) : ∃ t, stripRightChars l ++ t = l := by
  obtain ⟨s, hs⟩ := dropWhile_suffix_ex pyIsSpace l.reverse
  refine ⟨s.reverse, ?_⟩
  unfold stripRightChars
  have h2 := congrArg List.reverse hs
  simpa [List.reverse_append] using h2

theorem strip_head_cases (c : Char) (tail : List Char) (hc : pyIsSpace c = false) :
    pyStripChars (c :: tail) = [] ∨ ∃ t, pyStripChars (c :: tail) = c :: t := by
  unfold pyStripChars
  rw [show (c :: tail).dropWhile pyIsSpace = c :: tail from by simp [List.dropWhile, hc]]
  obtain ⟨t, ht⟩ := stripRight_prefix_ex (c :: tail)
  cases hsr : stripRightChars (c :: tail) with
  | nil => exact Or.inl rfl
  | cons x xs =>
    right
    rw [hsr, List.cons_append] at ht
    injection ht with h1 _
    exact ⟨xs, by rw [h1]⟩

theorem pyLower_strip_ne_all (q : String) (c : Char) (tail : List Char)
    (hq : q.data = c :: tail) (hc : pyIsSpace c = false)
    (hl : Char.toLower c ≠ Char.ofNat 97) :
    ¬ (pyLower (pyStrip q) = "all") := by
  intro h
  unfold pyLower pyStrip at h
  rw [hq] at h
  have hdata : (pyStripChars (c :: tail)).map Char.toLower = "all".data := congrArg String.data h
  rcases strip_head_cases c tail hc with h0 | ⟨t, ht⟩
  · rw [h0] at hdata
    exact absurd hdata (by decide)
  · rw [ht, List.map_cons] at hdata
    rw [show "all".data = Char.ofNat 97 :: "ll".data from by decide] at hdata
    injection hdata with hh _
    exact hl hh

theorem parse_scope_netclass_query (q n : String) (rest : List Char)
    (hq : q.data =
      "InNetClass(".data ++ Char.ofNat 39 :: (n.data ++ Char.ofNat 39 :: Char.ofNat 41 :: rest))
    (hn : n ≠ "") (hid : ∀ c ∈ n.data, isIdentChar c = true) :
    RuleManager.parse_scope q = ⟨"NetClass", [n]⟩ := by
  have hqcons : q.data = Char.ofNat 73 ::
      ("nNetClass(".data ++ Char.ofNat 39 :: (n.data ++ Char.ofNat 39 :: Char.ofNat 41 :: rest)) := by
    rw [hq, show "InNetClass(".data = Char.ofNat 73 :: "nNetClass(".data from by decide]
    rfl
  have hne : ¬ (q = "") := by
    intro h
    rw [h] at hqcons
    exact List.noConfusion hqcons
  have hall : ¬ (pyLower (pyStrip q) = "all") :=
    pyLower_strip_ne_all q _ _ hqcons (by decide) (by decide)
  have hmatch : matchInNetClassAt q.data = some (n.data, Char.ofNat 41 :: rest) := by
    rw [hq]
    exact matchInNetClassAt_shape n.data (Char.ofNat 41 :: rest)
      (fun c hc => identChar_not_quote (hid c hc))
  have hsearch : searchInNetClass q.data = some n.data := by
    rw [hqcons] at hmatch ⊢
    exact searchInNetClass_head _ _ _ _ hmatch
  have hstrip : pyStripChars n.data = n.data :=
    pyStripChars_of_no_space n.data (fun c hc => identChar_not_space (hid c hc))
  have hndata : n.data ≠ [] := by
    intro h
    exact hn (String.ext_iff.mpr h)
  have hident : identMatch n.data = true := by
    unfold identMatch
    simp [hndata, List.all_eq_true]
    exact hid
  have hcond : ¬ ((decide (q = "") || decide (pyLower (pyStrip q) = "all")) = true) := by
    simp [hne, hall]
  simp only [RuleManager.parse_scope]
  rw [if_neg hcond]
  simp only [hsearch, hstrip, hident, if_true]

theorem query_head_data_list (n : String) (s : List Char) :
    ("InNetClass(\x27" ++ n ++ "\x27)").data ++ s =
      "InNetClass(".data ++ Char.ofNat 39 :: (n.data ++ Char.ofNat 39 :: Char.ofNat 41 :: s) := by
  rw [String.data_append, String.data_append]
  rw [show "InNetClass(\x27".data = "InNetClass(".data ++ [Char.ofNat 39] from by decide]
  rw [show "\x27)".data = [Char.ofNat 39, Char.ofNat 41] from by decide]
  simp



theorem rulesFrom_append (u : UnitType) (pre : String) (l1 l2 : List (String × String × ℚ)) :
    ∀ k, rulesFrom u pre k (l1 ++ l2) =
      rulesFrom u pre k l1 ++ rulesFrom u pre (k + l1.length) l2 := by
  induction l1 with
  | nil => intro k; simp [rulesFrom]
  | cons e rest ih =>
    intro k
    simp only [List.cons_append, rulesFrom, List.append_eq, ih (k + 1), List.length_cons]
    rw [show k + (rest.length + 1) = k + 1 + rest.length from by omega]

theorem cell_step_spec (vals : List (List (Option ℚ))) (u : UnitType) (pre : String)
    (row : ℕ × String) (acc : List ClearanceRule) (k : ℕ) (col : ℕ × String) :
    to_clearance_cell_step vals u pre row (acc, k) col =
      match (if col.2 = "" then none else claimCellPred vals row col) with
      | none => (acc, k)
      | some e => (acc ++ [mkCellRule pre u e k], k + 1) := by
  unfold to_clearance_cell_step claimCellPred cellAt mkCellRule
  by_cases h1 : col.2 = ""
  · simp [h1]
  · cases hcell : ((vals.get? row.1).bind (fun r => r.get? col.1)).join with
    | none => simp [h1, hcell]
    | some v =>
      by_cases hz : v = 0
      · simp [h1, hcell, hz]
      · by_cases hneg : v < 0
        · have hnp : ¬ (0 < v) := by
            intro hx
            exact absurd (lt_trans hneg hx) (lt_irrefl v)
          simp [h1, hcell, hz, hneg, hnp]
        · have hpos : 0 < v := lt_of_le_of_ne (not_lt.mp hneg) (Ne.symm hz)
          simp [h1, hcell, hz, hneg, hpos]

theorem inner_fold_spec (vals : List (List (Option ℚ))) (u : UnitType) (pre : String)
    (row : ℕ × String) (cols : List (ℕ × String)) :
    ∀ (acc : List ClearanceRule) (k : ℕ),
    cols.foldl (to_clearance_cell_step vals u pre row) (acc, k) =
      (acc ++ rulesFrom u pre k
        (cols.filterMap (fun col => if col.2 = "" then none else claimCellPred vals row col)),
       k + (cols.filterMap
         (fun col => if col.2 = "" then none else claimCellPred vals row col)).length) := by
  induction cols with
  | nil => intro acc k; simp [rulesFrom]
  | cons c cs ih =>
    intro acc k
    rw [List.foldl_cons, cell_step_spec]
    cases hc : (if c.2 = "" then none else claimCellPred vals row c) with
    | none =>
      simp only [List.filterMap_cons, hc]
      exact ih acc k
    | some e =>
      simp only [List.filterMap_cons, hc, rulesFrom]
      rw [ih (acc ++ [mkCellRule pre u e k]) (k + 1)]
      rw [List.append_assoc, List.singleton_append, List.length_cons]
      rw [show k + 1 +
          (List.filterMap (fun col => if col.2 = "" then none else claimCellPred vals row col)
            cs).length =
          k + ((List.filterMap (fun col => if col.2 = "" then none else claimCellPred vals row col)
            cs).length + 1) from by omega]

theorem outer_fold_spec (colIndex : List String) (vals : List (List (Option ℚ)))
    (u : UnitType) (pre : String) (rows : List (ℕ × String)) :
    ∀ (acc : List ClearanceRule) (k : ℕ),
    rows.foldl (to_clearance_row_step colIndex vals u pre) (acc, k) =
      (acc ++ rulesFrom u pre k
        ((rows.map (fun row => if row.2 = "" then []
          else colIndex.enum.filterMap
            (fun col => if col.2 = "" then none else claimCellPred vals row col))).flatten),
       k + ((rows.map (fun row => if row.2 = "" then []
          else colIndex.enum.filterMap
            (fun col => if col.2 = "" then none else claimCellPred vals row col))).flatten).length) := by
  induction rows with
  | nil => intro acc k; simp [rulesFrom]
  | cons r rs ih =>
    intro acc k
    rw [List.foldl_cons]
    by_cases hr : r.2 = ""
    · rw [show to_clearance_row_step colIndex vals u pre (acc, k) r = (acc, k) from by
        simp [to_clearance_row_step, hr]]
      simp only [List.map_cons, List.flatten_cons, hr, if_true, List.nil_append]
      exact ih acc k
    · rw [show to_clearance_row_step colIndex vals u pre (acc, k) r =
        colIndex.enum.foldl (to_clearance_cell_step vals u pre r) (acc, k) from by
          simp [to_clearance_row_step, hr]]
      rw [inner_fold_spec]
      rw [ih]
      simp only [List.map_cons, List.flatten_cons, hr, if_false, List.append_assoc,
        List.length_append]
      rw [rulesFrom_append]
      rw [Nat.add_assoc]


theorem charLe_total (a b : List Char) : charLe a b = true ∨ charLe b a = true := by
  induction a generalizing b with
  | nil => exact Or.inl rfl
  | cons c cs ih =>
    cases b with
    | nil => exact Or.inr rfl
    | cons d ds =>
      by_cases h1 : c.toNat < d.toNat
      · exact Or.inl (by simp [charLe, h1])
      · by_cases h2 : d.toNat < c.toNat
        · exact Or.inr (by simp [charLe, h1, h2])
        · rcases ih ds with h | h
          · exact Or.inl (by simp [charLe, h1, h2, h])
          · exact Or.inr (by simp [charLe, h1, h2, h])

theorem charLe_trans {a b c : List Char} (h1 : charLe a b = true) (h2 : charLe b c = true) :
    charLe a c = true := by
  induction a generalizing b c with
  | nil => rfl
  | cons x xs ih =>
    cases b with
    | nil => exact absurd h1 (by simp [charLe])
    | cons y ys =>
      cases c with
      | nil => exact absurd h2 (by simp [charLe])
      | cons z zs =>
        simp only [charLe] at h1 h2 ⊢
        by_cases hxy : x.toNat < y.toNat
        · by_cases hyz : y.toNat < z.toNat
          · simp [show x.toNat < z.toNat from by omega]
          · by_cases hzy : z.toNat < y.toNat
            · simp [hxy, hyz, hzy] at h2
            · have : y.toNat = z.toNat := by omega
              simp [show x.toNat < z.toNat from by omega]
        · by_cases hyx : y.toNat < x.toNat
          · simp [hxy, hyx] at h1
          · have hxyeq : x.toNat = y.toNat := by omega
            by_cases hyz : y.toNat < z.toNat
            · simp [show x.toNat < z.toNat from by omega]
            · by_cases hzy : z.toNat < y.toNat
              · simp [hyz, hzy] at h2
              · have : ¬ x.toNat < z.toNat := by omega
                have : ¬ z.toNat < x.toNat := by omega
                simp only [hxy, hyx, if_false] at h1
                simp only [hyz, hzy, if_false] at h2
                simp [show ¬ x.toNat < z.toNat from by omega,
                  show ¬ z.toNat < x.toNat from by omega]
                exact ih h1 h2

theorem strLe_total (a b : String) : strLe a b = true ∨ strLe b a = true :=
  charLe_total a.data b.data

theorem strLe_trans {a b c : String} (h1 : strLe a b = true) (h2 : strLe b c = true) :
    strLe a c = true :=
  charLe_trans h1 h2

theorem insertSorted_perm (x : String) (l : List String) :
    (insertSorted x l).Perm (x :: l) := by
  induction l with
  | nil => exact List.Perm.refl _
  | cons y ys ih =>
    by_cases h : strLe x y = true
    · simp [insertSorted, h]
    · simp only [insertSorted, h, if_false]
      exact ((ih.cons y).trans (List.Perm.swap x y ys))

theorem pySort_perm (l : List String) : (pySort l).Perm l := by
  induction l with
  | nil => exact List.Perm.refl _
  | cons x xs ih =>
    have h1 : pySort (x :: xs) = insertSorted x (pySort xs) := rfl
    rw [h1]
    exact (insertSorted_perm x (pySort xs)).trans (ih.cons x)

theorem insertSorted_sorted (x : String) (l : List String)
    (h : l.Pairwise (fun a b => strLe a b = true)) :
    (insertSorted x l).Pairwise (fun a b => strLe a b = true) := by
  induction l with
  | nil => simp [insertSorted]
  | cons y ys ih =>
    rcases List.pairwise_cons.mp h with ⟨hy, hys⟩
    by_cases hxy : strLe x y = true
    · simp only [insertSorted, hxy, if_true]
      refine List.pairwise_cons.mpr ⟨?_, h⟩
      intro b hb
      rcases List.mem_cons.mp hb with rfl | hb2
      · exact hxy
      · exact strLe_trans hxy (hy b hb2)
    · have hyx : strLe y x = true := (strLe_total x y).resolve_left hxy
      simp only [insertSorted, hxy, if_false]
      refine List.pairwise_cons.mpr ⟨?_, ih hys⟩
      intro b hb
      have hb2 := (insertSorted_perm x ys).mem_iff.mp hb
      rcases List.mem_cons.mp hb2 with rfl | hb3
      · exact hyx
      · exact hy b hb3

theorem pySort_sorted (l : List String) :
    (pySort l).Pairwise (fun a b => strLe a b = true) := by
  induction l with
  | nil => simp [pySort]
  | cons x xs ih => exact insertSorted_sorted x (pySort xs) ih

theorem collectNetClassesNames_eq (rules : List ClearanceRule) :
    collectNetClassesNames rules = ruleNetClassNames rules := by
  have hfold : ∀ (rs : List ClearanceRule) (acc : List String),
      rs.foldl (fun acc rule =>
        let acc := if rule.source_scope.scope_type = "NetClass" ∧ rule.source_scope.items ≠ [] then
            acc ++ [rule.source_scope.items.headI] else acc
        if rule.target_scope.scope_type = "NetClass" ∧ rule.target_scope.items ≠ [] then
          acc ++ [rule.target_scope.items.headI] else acc) acc =
      acc ++ ruleNetClassNames rs := by
    intro rs
    induction rs with
    | nil => intro acc; simp [ruleNetClassNames]
    | cons r rest ih =>
      intro acc
      rw [List.foldl_cons, ih]
      by_cases h1 : r.source_scope.scope_type = "NetClass" ∧ r.source_scope.items ≠ [] <;>
        by_cases h2 : r.target_scope.scope_type = "NetClass" ∧ r.target_scope.items ≠ [] <;>
        simp [ruleNetClassNames, h1, h2]
  have h0 := hfold rules []
  simpa [collectNetClassesNames] using h0

theorem collectNetClasses_sorted_union (rules : List ClearanceRule) :
    IsSortedUnion (collectNetClasses rules) rules := by
  have hperm : (collectNetClasses rules).Perm (collectNetClassesNames rules).dedup :=
    pySort_perm _
  constructor
  · have hnodup : (collectNetClasses rules).Nodup :=
      hperm.nodup_iff.mpr (List.nodup_dedup _)
    have hsorted := pySort_sorted (collectNetClassesNames rules).dedup
    exact hsorted.and hnodup
  · intro x
    rw [hperm.mem_iff, List.mem_dedup, collectNetClassesNames_eq]

theorem collectNetClasses_nodup (rules : List ClearanceRule) :
    (collectNetClasses rules).Nodup :=
  (pySort_perm _).nodup_iff.mpr (List.nodup_dedup _)

theorem set_map_indexOf {α : Type} (nc : List String) (hnd : nc.Nodup) (f g : String → α)
    (a : String) (ha : a ∈ nc) (v : α)
    (hga : v = g a) (hother : ∀ s ∈ nc, s ≠ a → g s = f s) :
    (nc.map f).set (nc.indexOf a) v = nc.map g := by
  have hia : nc.indexOf a < nc.length := List.indexOf_lt_length.mpr ha
  apply List.ext_getElem
  · simp
  · intro p h1 h2
    have hp : p < nc.length := by simpa using h2
    rw [List.getElem_set]
    by_cases hip : nc.indexOf a = p
    · subst hip
      rw [if_pos rfl, List.getElem_map, List.getElem_indexOf]
      exact hga
    · rw [if_neg hip, List.getElem_map, List.getElem_map]
      refine (hother nc[p] (List.getElem_mem hp) ?_).symm
      intro hval
      apply hip
      have : nc[nc.indexOf a] = nc[p] := by
        rw [List.getElem_indexOf hia, hval]
      exact (hnd.getElem_inj_iff.mp this)

theorem cellSpec_append_miss (rs : List ClearanceRule) (r : ClearanceRule) (s t : String)
    (h : ruleSetsB s t r = false) :
    clearanceCellSpec (rs ++ [r]) s t = clearanceCellSpec rs s t := by
  unfold clearanceCellSpec
  rw [List.filter_append]
  simp [List.filter_cons, h]

theorem cellSpec_append_hit (rs : List ClearanceRule) (r : ClearanceRule) (s t : String)
    (h : ruleSetsB s t r = true) :
    clearanceCellSpec (rs ++ [r]) s t = some r.min_clearance := by
  unfold clearanceCellSpec
  rw [List.filter_append]
  simp [List.filter_cons, h, List.getLast?_append]

theorem ruleWrite_specMatrix (nc : List String) (hnd : nc.Nodup)
    (rs0 : List ClearanceRule) (r : ClearanceRule) :
    ruleWrite nc (specMatrix rs0 nc) r = specMatrix (rs0 ++ [r]) nc := by
  unfold ruleWrite
  by_cases h1 : r.source_scope.scope_type = "NetClass" ∧ r.source_scope.items ≠ [] ∧
      r.target_scope.scope_type = "NetClass" ∧ r.target_scope.items ≠ []
  · rw [if_pos h1]
    by_cases h2 : r.source_scope.items.headI ∈ nc ∧ r.target_scope.items.headI ∈ nc
    · rw [if_pos h2]
      show (specMatrix rs0 nc).set (nc.indexOf r.source_scope.items.headI)
          (((specMatrix rs0 nc).getD (nc.indexOf r.source_scope.items.headI) []).set
            (nc.indexOf r.target_scope.items.headI) (some r.min_clearance)) =
        specMatrix (rs0 ++ [r]) nc
      have hi : nc.indexOf r.source_scope.items.headI < nc.length :=
        List.indexOf_lt_length.mpr h2.1
      have hgetD : (specMatrix rs0 nc).getD (nc.indexOf r.source_scope.items.headI) [] =
          nc.map (fun t => clearanceCellSpec rs0 r.source_scope.items.headI t) := by
        rw [List.getD_eq_getElem _ _ (by simpa [specMatrix] using hi)]
        unfold specMatrix
        rw [List.getElem_map]
        rw [List.getElem_indexOf]
      rw [hgetD]
      have hrow : (nc.map (fun t => clearanceCellSpec rs0 r.source_scope.items.headI t)).set
          (nc.indexOf r.target_scope.items.headI) (some r.min_clearance) =
          nc.map (fun t => clearanceCellSpec (rs0 ++ [r]) r.source_scope.items.headI t) := by
        refine set_map_indexOf nc hnd _ _ _ h2.2 _ ?_ ?_
        · rw [cellSpec_append_hit]
          simp only [ruleSetsB]
          simp [h1.1, h1.2.1, h1.2.2.1, h1.2.2.2]
        · intro t ht hne
          refine cellSpec_append_miss _ _ _ _ ?_
          simp only [ruleSetsB, decide_eq_false_iff_not]
          intro hx
          exact hne hx.2.2.2.2.2.symm
      rw [hrow]
      refine set_map_indexOf nc hnd _ _ _ h2.1 _ rfl ?_
      intro s hs hne
      refine List.map_congr_left ?_
      intro t ht2
      refine cellSpec_append_miss _ _ _ _ ?_
      simp only [ruleSetsB, decide_eq_false_iff_not]
      intro hx
      exact hne hx.2.2.1.symm
    · rw [if_neg h2]
      unfold specMatrix
      refine List.map_congr_left ?_
      intro s hs
      refine List.map_congr_left ?_
      intro t ht
      refine (cellSpec_append_miss _ _ _ _ ?_).symm
      simp only [ruleSetsB, decide_eq_false_iff_not]
      intro hx
      exact h2 ⟨hx.2.2.1 ▸ hs, hx.2.2.2.2.2 ▸ ht⟩
  · rw [if_neg h1]
    unfold specMatrix
    refine List.map_congr_left ?_
    intro s hs
    refine List.map_congr_left ?_
    intro t ht
    refine (cellSpec_append_miss _ _ _ _ ?_).symm
    simp only [ruleSetsB, decide_eq_false_iff_not]
    intro hx
    exact h1 ⟨hx.1, hx.2.1, hx.2.2.2.1, hx.2.2.2.2.1⟩

theorem foldl_ruleWrite_spec (nc : List String) (hnd : nc.Nodup)
    (rs : List ClearanceRule) :
    ∀ rs0 : List ClearanceRule,
    rs.foldl (ruleWrite nc) (specMatrix rs0 nc) = specMatrix (rs0 ++ rs) nc := by
  induction rs with
  | nil => intro rs0; simp
  | cons r rest ih =>
    intro rs0
    rw [List.foldl_cons, ruleWrite_specMatrix nc hnd, ih (rs0 ++ [r])]
    simp

theorem df0_spec (nc : List String) :
    (nc.map (fun _ => nc.map (fun _ => (none : Option ℚ)))) = specMatrix [] nc := by
  unfold specMatrix clearanceCellSpec
  simp

theorem from_clearance_rules_eq (r0 : ClearanceRule) (rest : List ClearanceRule) :
    ExcelPivotData.from_clearance_rules (r0 :: rest) =
      some (((ExcelPivotData.init (some .CLEARANCE)).load_dataframe
        ⟨"NetClass" :: collectNetClasses (r0 :: rest),
         (collectNetClasses (r0 :: rest)).zip
           (specMatrix (r0 :: rest) (collectNetClasses (r0 :: rest)))⟩
        r0.unit).2) := by
  unfold ExcelPivotData.from_clearance_rules
  rw [if_neg (by simp : ¬((r0 :: rest).isEmpty = true))]
  show some (((ExcelPivotData.init (some .CLEARANCE)).load_dataframe
      ⟨"NetClass" :: collectNetClasses (r0 :: rest),
       (collectNetClasses (r0 :: rest)).zip
         ((r0 :: rest).foldl (ruleWrite (collectNetClasses (r0 :: rest)))
           ((collectNetClasses (r0 :: rest)).map
             (fun _ => (collectNetClasses (r0 :: rest)).map (fun _ => (none : Option ℚ)))))⟩
      r0.unit).2) = _
  rw [df0_spec, foldl_ruleWrite_spec _ (collectNetClasses_nodup _) _ [], List.nil_append]

theorem load_dataframe_square (rt : Option RuleType) (labels : List String)
    (M : List (List (Option ℚ))) (unit : UnitType)
    (hM : M.length = labels.length) (hge : 2 ≤ labels.length) :
    (ExcelPivotData.init rt).load_dataframe ⟨"NetClass" :: labels, labels.zip M⟩ unit =
      (true, ⟨rt, some ⟨"NetClass" :: labels, labels.zip M⟩, some labels, some labels,
        some M, unit⟩) := by
  have hzlen : (labels.zip M).length = labels.length := by
    rw [List.length_zip, hM]
    exact Nat.min_self _
  have hcond : ((⟨"NetClass" :: labels, labels.zip M⟩ : DFrame).isEmptyDf ||
      decide ((⟨"NetClass" :: labels, labels.zip M⟩ : DFrame).shape0 < 2) ||
      decide ((⟨"NetClass" :: labels, labels.zip M⟩ : DFrame).shape1 < 2)) = false := by
    unfold DFrame.isEmptyDf DFrame.shape0 DFrame.shape1
    simp only [List.length_cons, hzlen]
    simp only [Bool.or_eq_false_iff, decide_eq_false_iff_not]
    omega
  simp only [ExcelPivotData.load_dataframe]
  rw [if_neg (by rw [hcond]; exact Bool.false_ne_true)]
  simp [ExcelPivotData.init, List.map_fst_zip labels M (le_of_eq hM.symm),
    List.map_snd_zip labels M (le_of_eq hM)]

theorem rul_properties_eq (r : ClearanceRule) (uid : String) :
    r.rul_properties uid =
      [("SELECTION", "FALSE"), ("LAYER", "UNKNOWN"), ("LOCKED", "FALSE"),
       ("POLYGONOUTLINE", "FALSE"), ("USERROUTED", "TRUE"), ("KEEPOUT", "FALSE"),
       ("UNIONINDEX", "0"), ("RULEKIND", "Clearance"),
       ("NETSCOPE", "DifferentNets"), ("LAYERKIND", "SameLayer"),
       ("SCOPE1EXPRESSION", r.source_scope.to_rul_fmt),
       ("SCOPE2EXPRESSION", r.target_scope.to_rul_fmt),
       ("NAME", r.name),
       ("ENABLED", if r.enabled then "TRUE" else "FALSE"),
       ("PRIORITY", pyIntRepr r.priority),
       ("COMMENT", r.comment),
       ("UNIQUEID", uid),
       ("DEFINEDBYLOGICALDOCUMENT", "FALSE"),
       ("GAP", pyFloatRepr r.min_clearance ++ r.unit.value),
       ("GENERICCLEARANCE", pyFloatRepr r.min_clearance ++ r.unit.value),
       ("IGNOREPADTOPADCLEARANCEINFOOTPRINT", "FALSE"),
       ("OBJECTCLEARANCES", " ")] := by
  simp [ClearanceRule.rul_properties, get_base_rul_properties, dictUpdate, dictSet,
    RuleType.value]

theorem dropLit_suffix (p : List Char) : ∀ l r, dropLit p l = some r → ∃ s, s ++ r = l := by
  induction p with
  | nil =>
    intro l r h
    exact ⟨[], by simpa [dropLit] using h.symm⟩
  | cons c cs ih =>
    intro l r h
    cases l with
    | nil => simp [dropLit] at h
    | cons x xs =>
      simp only [dropLit] at h
      by_cases hx : x = c
      · rw [if_pos hx] at h
        obtain ⟨s, hs⟩ := ih xs r h
        exact ⟨x :: s, by rw [List.cons_append, hs]⟩
      · rw [if_neg hx] at h
        exact absurd h (by simp)

theorem matchRuleBlockAt_none {l : List Char} (h : Char.ofNat 123 ∉ l) :
    matchRuleBlockAt l = none := by
  simp only [matchRuleBlockAt]
  split
  · rfl
  · next rest heq =>
    obtain ⟨s, hs⟩ := dropLit_suffix _ l rest heq
    have hrest : Char.ofNat 123 ∉ rest := fun hm => h (hs ▸ List.mem_append_right s hm)
    split
    · rfl
    · next c rest2 hdw =>
      have hc : c ∈ rest := (List.dropWhile_sublist (p := pyIsSpace) (l := rest)).mem
        (hdw ▸ List.mem_cons_self c rest2)
      have hne : ¬ (c = Char.ofNat 123) := fun he => hrest (he ▸ hc)
      rw [if_neg hne]

theorem extractBlocksAux_none (fuel : Nat) : ∀ l, Char.ofNat 123 ∉ l →
    extractBlocksAux fuel l = [] := by
  induction fuel with
  | zero => intro l h; rfl
  | succ n ih =>
    intro l h
    cases l with
    | nil => rfl
    | cons c cs =>
      have hred : extractBlocksAux (n + 1) (c :: cs) =
          match matchRuleBlockAt (c :: cs) with
          | some (block, rem) => block :: extractBlocksAux n rem
          | none => extractBlocksAux n cs := rfl
      rw [hred, matchRuleBlockAt_none h]
      exact ih cs (fun hm => h (List.mem_cons_of_mem c hm))

theorem extract_rule_blocks_no_brace (s : String) (h : Char.ofNat 123 ∉ s.data) :
    extract_rule_blocks s = [] := by
  unfold extract_rule_blocks
  rw [extractBlocksAux_none _ _ h]
  rfl

theorem mem_pyJoin {c : Char} (sep : String) (l : List String)
    (h : c ∈ (pyJoin sep l).data) : c ∈ sep.data ∨ ∃ x ∈ l, c ∈ x.data := by
  induction l with
  | nil => simp [pyJoin] at h
  | cons x xs ih =>
    cases xs with
    | nil => exact Or.inr ⟨x, by simp, by simpa [pyJoin] using h⟩
    | cons y rest =>
      simp only [pyJoin, String.data_append, List.mem_append] at h
      rcases h with (hx | hsep) | hrest
      · exact Or.inr ⟨x, by simp, hx⟩
      · exact Or.inl hsep
      · rcases ih hrest with hsep | ⟨z, hz, hcz⟩
        · exact Or.inl hsep
        · exact Or.inr ⟨z, List.mem_cons_of_mem x hz, hcz⟩

theorem build_rul_line_no_brace (props : List (String × String))
    (h : ∀ kv ∈ props, Char.ofNat 123 ∉ kv.1.data ∧ Char.ofNat 123 ∉ kv.2.data) :
    Char.ofNat 123 ∉ (build_rul_line props).data := by
  intro hmem
  unfold build_rul_line at hmem
  rcases mem_pyJoin "|" _ hmem with hsep | ⟨x, hx, hcx⟩
  · exact absurd hsep (by decide)
  · rw [(pySort_perm _).mem_iff] at hx
    rcases List.mem_filterMap.mp hx with ⟨kv, hkv, hfkv⟩
    by_cases hv : kv.2 = ""
    · rw [if_pos hv] at hfkv
      exact absurd hfkv (by simp)
    · rw [if_neg hv] at hfkv
      have hx2 : kv.1 ++ "=" ++ kv.2 = x := Option.some.inj hfkv
      rw [← hx2, String.data_append, String.data_append] at hcx
      rcases List.mem_append.mp hcx with h1 | h2
      · rcases List.mem_append.mp h1 with h3 | h4
        · exact (h kv hkv).1 h3
        · exact absurd h4 (by decide)
      · exact (h kv hkv).2 h2

theorem digitChar_ne_brace {k : ℕ} (h : k < 10) : Nat.digitChar k ≠ Char.ofNat 123 := by
  have hk : k = 0 ∨ k = 1 ∨ k = 2 ∨ k = 3 ∨ k = 4 ∨ k = 5 ∨ k = 6 ∨ k = 7 ∨ k = 8 ∨ k = 9 := by
    omega
  rcases hk with rfl | rfl | rfl | rfl | rfl | rfl | rfl | rfl | rfl | rfl <;> decide

theorem natReprAux_no_brace (fuel : Nat) : ∀ n, Char.ofNat 123 ∉ natReprAux fuel n := by
  induction fuel with
  | zero => intro n hm; simp [natReprAux] at hm
  | succ f ih =>
    intro n hm
    unfold natReprAux at hm
    by_cases h : n < 10
    · rw [if_pos h] at hm
      exact digitChar_ne_brace h (List.mem_singleton.mp hm).symm
    · rw [if_neg h] at hm
      rcases List.mem_append.mp hm with h1 | h2
      · exact ih (n / 10) h1
      · have h9 : n % 10 < 10 := Nat.mod_lt _ (by omega)
        exact digitChar_ne_brace h9 (List.mem_singleton.mp h2).symm

theorem pyIntRepr_no_brace (i : ℤ) : Char.ofNat 123 ∉ (pyIntRepr i).data := by
  intro hm
  unfold pyIntRepr natRepr at hm
  by_cases h : i < 0
  · rw [if_pos h] at hm
    rw [String.data_append] at hm
    rcases List.mem_append.mp hm with h1 | h2
    · exact absurd h1 (by decide)
    · exact natReprAux_no_brace _ _ h2
  · rw [if_neg h] at hm
    exact natReprAux_no_brace _ _ hm

theorem decDigitsFuel_no_brace (fuel : Nat) : ∀ r d, 0 < d → r < d →
    Char.ofNat 123 ∉ decDigitsFuel fuel r d := by
  induction fuel with
  | zero => intro r d _ _ hm; simp [decDigitsFuel] at hm
  | succ f ih =>
    intro r d hd hr hm
    unfold decDigitsFuel at hm
    by_cases h0 : r = 0
    · rw [if_pos h0] at hm
      exact absurd hm (List.not_mem_nil _)
    · rw [if_neg h0] at hm
      rcases List.mem_cons.mp hm with h1 | h2
      · have hlt : r * 10 / d < 10 := Nat.div_lt_of_lt_mul (by omega)
        exact digitChar_ne_brace hlt h1.symm
      · exact ih _ d hd (Nat.mod_lt _ hd) h2

theorem pyFloatRepr_no_brace (q : ℚ) : Char.ofNat 123 ∉ (pyFloatRepr q).data := by
  intro hm
  simp only [pyFloatRepr, natRepr, String.data_append, List.mem_append] at hm
  rcases hm with ((hs | hi) | hdot) | hfr
  · by_cases h : q < 0
    · rw [if_pos h] at hs
      exact absurd hs (by decide)
    · rw [if_neg h] at hs
      exact absurd hs (by decide)
  · exact natReprAux_no_brace _ _ hi
  · exact absurd hdot (by decide)
  · by_cases h : q.num.natAbs % q.den = 0
    · rw [if_pos h] at hfr
      exact absurd hfr (by decide)
    · rw [if_neg h] at hfr
      have hdpos : 0 < q.den := q.pos
      exact decDigitsFuel_no_brace _ _ _ hdpos (Nat.mod_lt _ hdpos) hfr

theorem unit_value_no_brace (u : UnitType) : Char.ofNat 123 ∉ u.value.data := by
  cases u <;> decide

theorem gap_no_brace (q : ℚ) (u : UnitType) :
    Char.ofNat 123 ∉ (pyFloatRepr q ++ u.value).data := by
  intro hm
  rw [String.data_append] at hm
  rcases List.mem_append.mp hm with h1 | h2
  · exact pyFloatRepr_no_brace q h1
  · exact unit_value_no_brace u h2

theorem netclass_to_rul_fmt (n : String) :
    RuleScope.to_rul_fmt ⟨"NetClass", [n]⟩ = "InNetClass(\x27" ++ n ++ "\x27)" := by
  rfl

theorem inNetClass_no_brace (n : String) (h : Char.ofNat 123 ∉ n.data) :
    Char.ofNat 123 ∉ ("InNetClass(\x27" ++ n ++ "\x27)").data := by
  intro hm
  have he := query_head_data_list n []
  rw [List.append_nil] at he
  rw [he] at hm
  rcases List.mem_append.mp hm with h1 | h2
  · exact absurd h1 (by decide)
  · rcases List.mem_cons.mp h2 with h3 | h4
    · exact absurd h3 (by decide)
    · rcases List.mem_append.mp h4 with h5 | h6
      · exact h h5
      · exact absurd h6 (by decide)

theorem to_rul_format_no_brace (r : ClearanceRule) (uid ns nt : String)
    (hsrc : r.source_scope = ⟨"NetClass", [ns]⟩)
    (htgt : r.target_scope = ⟨"NetClass", [nt]⟩)
    (hname : Char.ofNat 123 ∉ r.name.data)
    (hcomment : Char.ofNat 123 ∉ r.comment.data)
    (hns : Char.ofNat 123 ∉ ns.data) (hnt : Char.ofNat 123 ∉ nt.data)
    (huid : Char.ofNat 123 ∉ uid.data) :
    Char.ofNat 123 ∉ (r.to_rul_format uid).data := by
  unfold ClearanceRule.to_rul_format
  apply build_rul_line_no_brace
  intro kv hkv
  rw [rul_properties_eq, hsrc, htgt, netclass_to_rul_fmt ns, netclass_to_rul_fmt nt] at hkv
  fin_cases hkv
  · exact ⟨by decide, by decide⟩
  · exact ⟨by decide, by decide⟩
  · exact ⟨by decide, by decide⟩
  · exact ⟨by decide, by decide⟩
  · exact ⟨by decide, by decide⟩
  · exact ⟨by decide, by decide⟩
  · exact ⟨by decide, by decide⟩
  · exact ⟨by decide, by decide⟩
  · exact ⟨by decide, by decide⟩
  · exact ⟨by decide, by decide⟩
  · exact ⟨show Char.ofNat 123 ∉ "SCOPE1EXPRESSION".data by decide, inNetClass_no_brace ns hns⟩
  · exact ⟨show Char.ofNat 123 ∉ "SCOPE2EXPRESSION".data by decide, inNetClass_no_brace nt hnt⟩
  · exact ⟨show Char.ofNat 123 ∉ "NAME".data by decide, hname⟩
  · cases r.enabled <;> exact ⟨by decide, by decide⟩
  · exact ⟨show Char.ofNat 123 ∉ "PRIORITY".data by decide, pyIntRepr_no_brace r.priority⟩
  · exact ⟨show Char.ofNat 123 ∉ "COMMENT".data by decide, hcomment⟩
  · exact ⟨show Char.ofNat 123 ∉ "UNIQUEID".data by decide, huid⟩
  · exact ⟨by decide, by decide⟩
  · exact ⟨show Char.ofNat 123 ∉ "GAP".data by decide, gap_no_brace r.min_clearance r.unit⟩
  · exact ⟨show Char.ofNat 123 ∉ "GENERICCLEARANCE".data by decide, gap_no_brace r.min_clearance r.unit⟩
  · exact ⟨by decide, by decide⟩
  · exact ⟨by decide, by decide⟩

/-! ### Claim theorems -/

set_option maxRecDepth 16384

/-- C8 counterexample: the claim says `convert(x, U, U)` returns exactly `x`
bit-for-bit for every unit U; for the binary64 value
`x = 1 + 108086391057003 * 2^-52` the INCH-to-INCH conversion multiplies and
divides by 1000 and lands one ulp below `x`. -/
theorem c8_convert_inch_not_exact :
    isB64 c8Double ∧
    ¬ Frac.feq (UnitType.convert c8Double .INCH .INCH) c8Double := by
  constructor
  · decide
  · decide

/-- C8 (amended): `convert(x, U, U)` returns its argument bit-for-bit when
`U = MIL` (the conversion path performs no arithmetic there); for MM and INCH
the value is rounded through a float multiply/divide pair and need not be
bit-for-bit equal (see the counterexample). -/
theorem c8_convert_mil_identity (x : Frac) :
    UnitType.convert x .MIL .MIL = x := by
  simp [UnitType.convert]

/-- C3 counterexample: the claim says serializing the same unmodified rule
twice produces identical lines; the UNIQUEID draw happens inside each
serialization call, so two calls with different draws give different lines. -/
theorem c3_two_serializations_differ :
    ClearanceRule.to_rul_format exClearanceRule "AAAAAAAA" ≠
      ClearanceRule.to_rul_format exClearanceRule "BBBBBBBB" := by
  decide

/-- C3 (amended): no unique id is stored on the rule object (the embedded
rule structures carry none); instead the serialization draws a fresh id each
call, and the property dictionary a serialization builds is a deterministic
function of the rule fields and that draw: for a fixed rule, two draws give
the same dictionary exactly when they are equal. -/
theorem c3_serialization_determined_by_draw (r : ClearanceRule) (u1 u2 : String) :
    r.rul_properties u1 = r.rul_properties u2 ↔ u1 = u2 := by
  constructor
  · intro h
    have h1 := rul_properties_uniqueid r u1
    rw [h, rul_properties_uniqueid r u2] at h1
    exact h1.symm
  · intro h
    rw [h]

/-- C3 witness: the amended equivalence applied at a concrete rule and draw. -/
theorem c3_witness :
    exClearanceRule.rul_properties "AAAAAAAA" = exClearanceRule.rul_properties "AAAAAAAA" :=
  (c3_serialization_determined_by_draw exClearanceRule "AAAAAAAA" "AAAAAAAA").mpr rfl

/-- C6 counterexample: the claim says only the first rule with a matching name
is removed, later duplicates staying; delete_rule removes every match. -/
theorem c6_delete_rule_not_first_only :
    RuleManager.delete_rule [dupRuleA, dupRuleB] "X" = ([], true) ∧
    removeFirstByName [dupRuleA, dupRuleB] "X" = ([dupRuleB], true) ∧
    RuleManager.delete_rule [dupRuleA, dupRuleB] "X" ≠
      removeFirstByName [dupRuleA, dupRuleB] "X" := by
  refine ⟨by decide, by decide, by decide⟩

/-- C6 (amended): delete_rule removes every rule whose name matches exactly
(not just the first), and returns true exactly when at least one rule was
removed; this holds for every collection, duplicate names included. -/
theorem c6_delete_rule_removes_all (rules : List Rule) (rule_name : String) :
    (RuleManager.delete_rule rules rule_name).1 =
      rules.filter (fun rule => rule.name ≠ rule_name) ∧
    ((RuleManager.delete_rule rules rule_name).2 = true ↔
      ∃ rule ∈ rules, rule.name = rule_name) := by
  have key : ((rules.filter (fun rule => rule.name ≠ rule_name)).length < rules.length) ↔
      ∃ rule ∈ rules, rule.name = rule_name := by
    rw [List.length_filter_lt_length_iff_exists]
    constructor
    · rintro ⟨r, hm, hp⟩
      exact ⟨r, hm, by simpa using hp⟩
    · rintro ⟨r, hm, hp⟩
      exact ⟨r, hm, by simpa using hp⟩
  simp only [RuleManager.delete_rule]
  constructor
  · split <;> rfl
  · split
    · rename_i h
      exact iff_of_true rfl (key.mp h)
    · rename_i h
      exact iff_of_false (fun h1 => Bool.false_ne_true h1) (fun hex => h (key.mpr hex))

/-- C6 witness: the amended theorem applied at a concrete collection. -/
theorem c6_witness : (RuleManager.delete_rule [dupRuleA] "X").2 = true :=
  (c6_delete_rule_removes_all [dupRuleA] "X").2.mpr ⟨dupRuleA, by decide, by decide⟩

/-- C9: load_dataframe reports failure exactly on tables with fewer than 2
rows or fewer than 2 columns (the empty table included), leaving the
row/column indices and values unextracted in that case; tables at least 2 x 2
are accepted. -/
theorem c9_load_dataframe_size_gate (rt : Option RuleType) (df : DFrame) (unit : UnitType) :
    (((ExcelPivotData.init rt).load_dataframe df unit).1 = false ↔
      df.shape0 < 2 ∨ df.shape1 < 2) ∧
    (df.shape0 < 2 ∨ df.shape1 < 2 →
      ((ExcelPivotData.init rt).load_dataframe df unit).2.row_index = none ∧
      ((ExcelPivotData.init rt).load_dataframe df unit).2.column_index = none ∧
      ((ExcelPivotData.init rt).load_dataframe df unit).2.values = none) := by
  have hc : (df.isEmptyDf || decide (df.shape0 < 2) || decide (df.shape1 < 2)) = true ↔
      (df.shape0 < 2 ∨ df.shape1 < 2) := by
    unfold DFrame.isEmptyDf DFrame.shape0 DFrame.shape1
    simp only [Bool.or_eq_true, decide_eq_true_eq]
    omega
  simp only [ExcelPivotData.load_dataframe]
  constructor
  · split
    · rename_i hif
      exact iff_of_true rfl (hc.mp hif)
    · rename_i hif
      exact iff_of_false (fun h1 => Bool.noConfusion h1) (fun h => hif (hc.mpr h))
  · intro h
    split
    · exact ⟨rfl, rfl, rfl⟩
    · rename_i hif
      exact absurd (hc.mpr h) hif

/-- C9 witness: a 1 x 1 table is rejected with no indices extracted. -/
theorem c9_witness :
    (((ExcelPivotData.init none).load_dataframe ⟨["NetClass"], [("A", [])]⟩ .MIL).1 = false) ∧
    (((ExcelPivotData.init none).load_dataframe ⟨["NetClass"], [("A", [])]⟩ .MIL).2.row_index = none) :=
  ⟨(c9_load_dataframe_size_gate none ⟨["NetClass"], [("A", [])]⟩ .MIL).1.mpr (by decide),
   ((c9_load_dataframe_size_gate none ⟨["NetClass"], [("A", [])]⟩ .MIL).2 (by decide)).1⟩

/-- C10: to_query_string is total on invariant-violating scopes: a NetClass or
Custom scope with an empty item list yields All, and so does every unknown
scope tag, whatever its items; no list indexing is reachable. -/
theorem c10_to_query_string_total :
    RuleScope.to_query_string ⟨"NetClass", []⟩ = "All" ∧
    RuleScope.to_query_string ⟨"Custom", []⟩ = "All" ∧
    ∀ (t : String) (items : List String),
      t ≠ "All" → t ≠ "NetClass" → t ≠ "NetClasses" → t ≠ "Custom" →
      RuleScope.to_query_string ⟨t, items⟩ = "All" := by
  refine ⟨by decide, by decide, ?_⟩
  intro t items h1 h2 h3 h4
  simp [RuleScope.to_query_string, h1, h2, h3, h4]

/-- C10 witness: the unknown-tag branch applied at a concrete scope. -/
theorem c10_witness : RuleScope.to_query_string ⟨"Bogus", ["x"]⟩ = "All" :=
  c10_to_query_string_total.2.2 "Bogus" ["x"] (by decide) (by decide) (by decide) (by decide)

/-- C4 counterexample: the claim says every whole-file parse returns false
when zero rules are recognized; RuleGenerator.parse_rul_content returns true
on an input whose single block has an unknown RuleKind and yields no rule. -/
theorem c4_generator_true_with_zero_rules :
    RuleGenerator.parse_rul_content ruleFooInput = (true, []) := by
  decide

/-- C4 (amended): RuleManager.from_rul_content does report success exactly
when at least one rule was recognized; RuleGenerator.parse_rul_content instead
reports success exactly when at least one rule block was found, even if none
of the blocks yields a rule. -/
theorem c4_parse_success_flags (rul_content : String) :
    ((RuleManager.from_rul_content rul_content).1 = true ↔
      (RuleManager.from_rul_content rul_content).2 ≠ []) ∧
    ((RuleGenerator.parse_rul_content rul_content).1 = true ↔
      extract_rule_blocks rul_content ≠ []) := by
  constructor
  · simp only [RuleManager.from_rul_content]
    split
    · rename_i hempty
      exact iff_of_false (fun h1 => Bool.noConfusion h1) (fun hne => hne rfl)
    · rename_i hempty
      split
      · rename_i hlen
        exact iff_of_false (fun h1 => Bool.noConfusion h1)
          (fun hne => hne (List.length_eq_zero.mp hlen))
      · rename_i hlen
        exact iff_of_true rfl (fun hnil => hlen (List.length_eq_zero.mpr hnil))
  · simp only [RuleGenerator.parse_rul_content]
    split
    · rename_i hempty
      exact iff_of_false (fun h1 => Bool.noConfusion h1)
        (fun hne => hne (List.isEmpty_iff.mp hempty))
    · rename_i hempty
      exact iff_of_true rfl (fun hnil => hempty (List.isEmpty_iff.mpr hnil))

/-- C4 witness: the amended equivalence applied at the unknown-kind input. -/
theorem c4_witness : (RuleGenerator.parse_rul_content ruleFooInput).1 = true :=
  (c4_parse_success_flags ruleFooInput).2.mpr (by decide)
/-- C2 counterexample: the claim says every well-formed non-Custom scope
round-trips through to_query_string and the scope parser; the NetClasses
scope over A and B serializes to two OR-joined InNetClass terms, but the
parser's single-class search fires first and returns NetClass of just A. -/
theorem c2_netclasses_roundtrip_fails :
    WfNonCustomScope ⟨"NetClasses", ["A", "B"]⟩ ∧
    RuleScope.to_query_string ⟨"NetClasses", ["A", "B"]⟩ =
      "InNetClass(\x27A\x27) OR InNetClass(\x27B\x27)" ∧
    RuleManager.parse_scope (RuleScope.to_query_string ⟨"NetClasses", ["A", "B"]⟩) =
      ⟨"NetClass", ["A"]⟩ ∧
    RuleManager.parse_scope (RuleScope.to_query_string ⟨"NetClasses", ["A", "B"]⟩) ≠
      ⟨"NetClasses", ["A", "B"]⟩ := by
  refine ⟨Or.inr (Or.inr ⟨rfl, by decide, by decide⟩), by decide, by decide, by decide⟩

/-- C2 (amended): the round-trip holds for All, and for NetClass scopes whose
single name is non-empty and made of letters, digits, underscores and hyphens
(the parser's identifier check; names with other characters, such as spaces,
come back as Custom or NetClasses instead); a NetClasses scope with such names
does not round-trip: it parses back as NetClass carrying only its first name. -/
theorem c2_scope_roundtrip :
    (RuleManager.parse_scope (RuleScope.to_query_string ⟨"All", []⟩) = ⟨"All", []⟩) ∧
    (∀ n : String, n ≠ "" → (∀ c ∈ n.data, isIdentChar c = true) →
      RuleManager.parse_scope (RuleScope.to_query_string ⟨"NetClass", [n]⟩) =
        ⟨"NetClass", [n]⟩) ∧
    (∀ (n : String) (ns : List String), n ≠ "" → (∀ c ∈ n.data, isIdentChar c = true) →
      RuleManager.parse_scope (RuleScope.to_query_string ⟨"NetClasses", n :: ns⟩) =
        ⟨"NetClass", [n]⟩) := by
  refine ⟨by decide, ?_, ?_⟩
  · intro n hn hid
    have hts : RuleScope.to_query_string ⟨"NetClass", [n]⟩ = "InNetClass(\x27" ++ n ++ "\x27)" := by
      simp [RuleScope.to_query_string]
    rw [hts]
    refine parse_scope_netclass_query _ n [] ?_ hn hid
    have h0 := query_head_data_list n []
    rwa [List.append_nil] at h0
  · intro n ns hn hid
    have hts : RuleScope.to_query_string ⟨"NetClasses", n :: ns⟩ =
        pyJoin " OR " (("InNetClass(\x27" ++ n ++ "\x27)") ::
          ns.map (fun item => "InNetClass(\x27" ++ item ++ "\x27)")) := by
      simp [RuleScope.to_query_string]
    rw [hts]
    cases hns : ns.map (fun item => "InNetClass(\x27" ++ item ++ "\x27)") with
    | nil =>
      simp only [pyJoin]
      refine parse_scope_netclass_query _ n [] ?_ hn hid
      have h0 := query_head_data_list n []
      rwa [List.append_nil] at h0
    | cons y t =>
      simp only [pyJoin]
      refine parse_scope_netclass_query _ n (" OR ".data ++ (pyJoin " OR " (y :: t)).data) ?_ hn hid
      rw [String.data_append, String.data_append]
      rw [← query_head_data_list n (" OR ".data ++ (pyJoin " OR " (y :: t)).data)]
      simp

/-- C2 witness: the NetClass round-trip applied at the name Power. -/
theorem c2_witness :
    RuleManager.parse_scope (RuleScope.to_query_string ⟨"NetClass", ["Power"]⟩) =
      ⟨"NetClass", ["Power"]⟩ :=
  c2_scope_roundtrip.2.1 "Power" (by decide) (by decide)

/-- C5 counterexample: the claim says every remaining (present, positive)
cell emits exactly one rule; a positive cell sitting under an empty row label
emits nothing, while the claim prescribes one rule for it. -/
theorem c5_empty_label_cells_dropped :
    ExcelPivotData.to_clearance_rules
      ⟨some .CLEARANCE, some ⟨["NetClass", "A"], [("", [some 5])]⟩, some ["A"], some [""],
        some [[some 5]], .MIL⟩ "Clearance_" = [] ∧
    rulesFrom .MIL "Clearance_" 1 (claimCells [""] ["A"] [[some 5]]) =
      [mkCellRule "Clearance_" .MIL ("", "A", 5) 1] ∧
    ExcelPivotData.to_clearance_rules
      ⟨some .CLEARANCE, some ⟨["NetClass", "A"], [("", [some 5])]⟩, some ["A"], some [""],
        some [[some 5]], .MIL⟩ "Clearance_" ≠
      rulesFrom .MIL "Clearance_" 1 (claimCells [""] ["A"] [[some 5]]) := by
  refine ⟨by decide, by decide, by decide⟩

/-- C5 (amended): the matrix-to-rules conversion emits, in row-major order,
exactly one ClearanceRule per cell that is present, strictly positive and
lies under non-empty row and column labels (cells that are missing, zero,
negative, or under an empty header emit nothing); each rule carries NetClass
scopes of the two labels, the cell value, the matrix unit, and priorities
count consecutively from 1 over the emitted rules. -/
theorem c5_matrix_to_rules (rt : Option RuleType) (df : DFrame)
    (rowIndex colIndex : List String) (vals : List (List (Option ℚ)))
    (unit : UnitType) (pre : String) :
    ExcelPivotData.to_clearance_rules
      ⟨rt, some df, some colIndex, some rowIndex, some vals, unit⟩ pre =
      rulesFrom unit pre 1 (amendedCells rowIndex colIndex vals) := by
  show (rowIndex.enum.foldl (to_clearance_row_step colIndex vals unit pre) ([], 1)).1 = _
  rw [outer_fold_spec colIndex vals unit pre rowIndex.enum [] 1]
  simp [amendedCells]

/-- C7 counterexample: the claim says the labels of the produced matrix are
the sorted union of the NetClass names for every non-empty rule list; with a
single net class the built frame is 1 x 2, load_dataframe rejects it, and the
returned pivot carries no labels or values at all. -/
theorem c7_single_class_no_labels :
    collectNetClasses [c7OneClassRule] = ["A"] ∧
    ExcelPivotData.from_clearance_rules [c7OneClassRule] =
      some ⟨some .CLEARANCE, some ⟨["NetClass", "A"], [("A", [some 5])]⟩,
        none, none, none, .MM⟩ := by
  refine ⟨by decide, by decide⟩

/-- C7 (amended): for every rule list whose NetClass-name union holds at
least two names, the conversion yields a pivot whose row and column labels
are both the sorted union of the NetClass names, whose body sets cell (s, t)
to the clearance of the last rule with source NetClass(s) and target
NetClass(t) (missing when no rule writes it), and whose unit is the first
rule's; with fewer than two names the 2 x 2 size gate of load_dataframe
rejects the frame and no labels or values are extracted (see the
counterexample). -/
theorem c7_rules_to_matrix (r0 : ClearanceRule) (rest : List ClearanceRule)
    (h2 : 2 ≤ (collectNetClasses (r0 :: rest)).length) :
    ∃ st labels,
      ExcelPivotData.from_clearance_rules (r0 :: rest) = some st ∧
      IsSortedUnion labels (r0 :: rest) ∧
      st.row_index = some labels ∧
      st.column_index = some labels ∧
      st.values = some (specMatrix (r0 :: rest) labels) ∧
      st.unit = r0.unit := by
  have hM : (specMatrix (r0 :: rest) (collectNetClasses (r0 :: rest))).length =
      (collectNetClasses (r0 :: rest)).length := by simp [specMatrix]
  refine ⟨⟨some .CLEARANCE,
    some ⟨"NetClass" :: collectNetClasses (r0 :: rest),
      (collectNetClasses (r0 :: rest)).zip
        (specMatrix (r0 :: rest) (collectNetClasses (r0 :: rest)))⟩,
    some (collectNetClasses (r0 :: rest)), some (collectNetClasses (r0 :: rest)),
    some (specMatrix (r0 :: rest) (collectNetClasses (r0 :: rest))), r0.unit⟩,
    collectNetClasses (r0 :: rest), ?_, collectNetClasses_sorted_union _,
    rfl, rfl, rfl, rfl⟩
  rw [from_clearance_rules_eq, load_dataframe_square _ _ _ _ hM h2]

/-- C7 witness: the amended theorem applied at a one-rule list over two net
classes. -/
theorem c7_witness :
    ∃ st labels,
      ExcelPivotData.from_clearance_rules [c7TwoClassRule] = some st ∧
      IsSortedUnion labels [c7TwoClassRule] ∧
      st.row_index = some labels ∧
      st.column_index = some labels ∧
      st.values = some (specMatrix [c7TwoClassRule] labels) ∧
      st.unit = c7TwoClassRule.unit :=
  c7_rules_to_matrix c7TwoClassRule [] (by decide)

/-- **C1** (counterexample): serializing the spec's own example clearance rule
(name C1, 8.5 mil, Power against Ground) and parsing the resulting text back
through RuleManager.from_rul_content yields failure and zero rules, although
the serialized line is non-empty: the serializer emits a pipe-delimited
KEY=VALUE line while the parser only recognizes legacy `Rule \x7b ... \x7d`
blocks, so no rule with the original fields is recovered. -/
theorem c1_serialize_parse_loses_rule :
    RuleManager.from_rul_content (ClearanceRule.to_rul_format exClearanceRule "AAAAAAAA") =
      (false, []) ∧ ClearanceRule.to_rul_format exClearanceRule "AAAAAAAA" ≠ "" :=
  ⟨by decide, by decide⟩

/-- **C1** (amended): the serialize-then-parse round trip loses every rule.
For every ClearanceRule with NetClass source and target scopes whose name,
comment, scope names and drawn unique id contain no opening-brace character
(true of every rule satisfying the claim's construction preconditions, and of
every 8-hex-digit id), the serialized line contains no brace, hence the
parser's block scan finds nothing and from_rul_content returns failure with an
empty rule list. -/
theorem c1_roundtrip_loses_all_rules (r : ClearanceRule) (uid ns nt : String)
    (hsrc : r.source_scope = ⟨"NetClass", [ns]⟩)
    (htgt : r.target_scope = ⟨"NetClass", [nt]⟩)
    (hname : Char.ofNat 123 ∉ r.name.data)
    (hcomment : Char.ofNat 123 ∉ r.comment.data)
    (hns : Char.ofNat 123 ∉ ns.data) (hnt : Char.ofNat 123 ∉ nt.data)
    (huid : Char.ofNat 123 ∉ uid.data) :
    RuleManager.from_rul_content (r.to_rul_format uid) = (false, []) := by
  have hnb := to_rul_format_no_brace r uid ns nt hsrc htgt hname hcomment hns hnt huid
  simp only [RuleManager.from_rul_content]
  rw [extract_rule_blocks_no_brace _ hnb]
  rfl

/-- **C1** (witness): the amended theorem applied to the spec's example rule
with the concrete id draw AAAAAAAA. -/
theorem c1_roundtrip_witness :
    RuleManager.from_rul_content (exClearanceRule.to_rul_format "AAAAAAAA") = (false, []) :=
  c1_roundtrip_loses_all_rules exClearanceRule "AAAAAAAA" "Power" "Ground" rfl rfl
    (by decide) (by decide) (by decide) (by decide) (by decide)
